import Mathlib

/-!
API-Proxy-PoC: admission gate and first-fit dispatcher.

A shallow embedding of `load_balancer.go`, in two readings.

The program on the machine:

* Go's `int` and `int64` are 64-bit two's-complement integers: a field or argument of
  these types is an `Int`, and every addition of the source is followed by `wrap64`.
  The method `AllowRequest` in this reading is `Node.AllowRequest64`.
* A `*Node` is an address into a `Store`, which holds a node at every address (the
  pointers of a pool are not nil), and a pool `[]*Node` is a list of addresses, so
  that one node may be listed more than once. The dispatcher in this reading is
  `LoadBalancer64.HandleRequest`; its loop counter `i` is a 64-bit integer, and because
  the loop need not end, the handler takes the number of tests of the loop condition
  it may make (`fuel`) and returns `none` when that number does not suffice.

The program on exact integers:

* `Node.AllowRequest` adds without wraparound, and `LoadBalancer.HandleRequest` runs
  on a pool of pairwise distinct nodes given by value, with an exact loop counter.
  This reading describes the runs on which no sum overflows and no node is listed
  twice. It is used for the statements that are about such runs or that hold in both
  readings; their 64-bit counterparts are `AllowRequest64_snd_of_reject`,
  `run64_within`, `retry_after_reset64`, `sleepCount_exhausted64` and
  `response_exhausted64`, and the two readings of `AllowRequest` agree while no sum
  leaves the 64-bit range (`AllowRequest64_eq`).

In both readings:

* A method with a pointer receiver `func (n *Node) f(..) r` becomes a function from
  the node before the call to the pair of the returned value and the node after it.
* `sync.Mutex` has no sequential content: each method body runs as one step, which is
  what holding the lock for the whole body (`Lock` / `defer Unlock`) gives.
-/

namespace APIProxy

/-! ## Definitions -/

/-- The `Node` struct (lines 11-21), without its mutex. -/
structure Node where
  URL : String
  APIKey : String
  MaxBPM : Int
  MaxRPM : Int
  currentBPM : Int
  currentRPM : Int
  totalRequests : Int
  totalBytes : Int
  deriving DecidableEq

/-- The method `func (n *Node) AllowRequest(size int) bool` (lines 23-40) on exact
integers: the returned boolean and the node after the call, on the runs on which no
sum overflows. `Node.AllowRequest64` is the method on 64-bit integers. -/
def Node.AllowRequest (n : Node) (size : Int) : Bool × Node :=
  if n.currentRPM + 1 > n.MaxRPM then
    (false, n)
  else if n.currentBPM + size > n.MaxBPM then
    (false, n)
  else
    (true,
      { n with
        currentRPM := n.currentRPM + 1
        currentBPM := n.currentBPM + size
        totalRequests := n.totalRequests + 1
        totalBytes := n.totalBytes + size })

/-- The method `func (n *Node) ResetCounts()` (lines 42-47). -/
def Node.ResetCounts (n : Node) : Node :=
  { n with currentBPM := 0, currentRPM := 0 }

/-- The calls a client can make on one node. -/
inductive Op where
  | allow (cost : Int)
  | reset
  deriving DecidableEq

/-- One call on a node: the node after it. -/
def Node.step (n : Node) : Op → Node
  | Op.allow cost => (n.AllowRequest cost).2
  | Op.reset => n.ResetCounts

/-- A finite sequence of calls on a node, made one after the other. -/
def Node.run (n : Node) : List Op → Node
  | [] => n
  | op :: ops => (n.step op).run ops

/-- The `LoadBalancer` struct (lines 49-52) with its pool given by value: the nodes
of the pool are pairwise distinct. `LoadBalancer64` has the pool as pointers. -/
structure LoadBalancer where
  Nodes : List Node
  RetryLimit : Int
  deriving DecidableEq

/-- The part of `http.ResponseWriter` that a handler can observe on the wire: whether
the status line has been committed, the committed status code, and the body written
so far. -/
structure ResponseWriter where
  wroteHeader : Bool
  status : Int
  body : String
  deriving DecidableEq

/-- The response writer a handler receives: nothing committed, nothing written. -/
def ResponseWriter.fresh : ResponseWriter :=
  { wroteHeader := false, status := 0, body := "" }

/-- The `WriteHeader` method of net/http: commits the status code; a call after the
header has been committed is superfluous and changes nothing. -/
def ResponseWriter.WriteHeader (w : ResponseWriter) (code : Int) : ResponseWriter :=
  if w.wroteHeader then w else { w with wroteHeader := true, status := code }

/-- The `Write` method of net/http: the first write commits status 200 when no header
has been written yet; the data is appended to the body. -/
def ResponseWriter.Write (w : ResponseWriter) (data : String) : ResponseWriter :=
  let w1 := if w.wroteHeader then w else w.WriteHeader 200
  { w1 with body := w1.body ++ data }

/-- The call `fmt.Fprintln(w, s)`: writes `s` and a newline. -/
def Fprintln (w : ResponseWriter) (s : String) : ResponseWriter :=
  w.Write (s ++ "\n")

/-- The call `http.Error(w, msg, code)` of net/http: `w.WriteHeader(code)` followed by
`fmt.Fprintln(w, msg)` (the header fields it sets are not modelled). -/
def httpError (w : ResponseWriter) (msg : String) (code : Int) : ResponseWriter :=
  Fprintln (w.WriteHeader code) msg

/-- The constant `http.StatusServiceUnavailable`. -/
def StatusServiceUnavailable : Int := 503

/-- The effects of `HandleRequest` other than its writes to the response: the calls
of `AllowRequest` (with the returned boolean; `node` identifies the node that was
asked, by its list index in a pool given by value and by its address in a pool of
pointers) and the calls of `time.Sleep` (in seconds). -/
inductive Event where
  | allowRequest (node : Nat) (size : Int) (admitted : Bool)
  | sleep (seconds : Nat)
  deriving DecidableEq

/-- What one pass of the inner loop (lines 58-64) leaves behind. -/
structure ScanResult where
  nodes : List Node
  chosen : Option (Nat × Node)
  events : List Event
  deriving DecidableEq

/-- The inner loop `for _, node := range lb.Nodes` (lines 58-64), entered at list
index `i`: `AllowRequest` is called on the nodes in list order until one returns
true; `chosen` is that node (index and state after the call), if any. -/
def scan (size : Int) : Nat → List Node → ScanResult
  | _, [] => { nodes := [], chosen := none, events := [] }
  | i, node :: rest =>
    let r := node.AllowRequest size
    if r.1 then
      { nodes := r.2 :: rest, chosen := some (i, r.2), events := [Event.allowRequest i size true] }
    else
      let s := scan size (i + 1) rest
      { nodes := r.2 :: s.nodes, chosen := s.chosen,
        events := Event.allowRequest i size false :: s.events }

/-- What a call of `HandleRequest` leaves behind: the pool, the response, the trace of
effects, and the control path taken: `directed = some i` when the handler returned
from inside the loop (line 62) for the node at index `i`, `none` when control reached
lines 68-69. -/
structure Outcome where
  nodes : List Node
  w : ResponseWriter
  trace : List Event
  directed : Option Nat
  deriving DecidableEq

/-- The outer loop of `HandleRequest` (lines 57-67) with `remaining` iterations still
to run, followed by lines 68-69. -/
def attempts (size : Int) :
    Nat → List Node → ResponseWriter → String → List Event → Outcome
  | 0, nodes, w, lastError, tr =>
    { nodes := nodes
      w := httpError (Fprintln w lastError) lastError StatusServiceUnavailable
      trace := tr
      directed := none }
  | remaining + 1, nodes, w, _, tr =>
    let s := scan size 0 nodes
    match s.chosen with
    | some (i, node) =>
      { nodes := s.nodes
        w := w.Write ("Request directed to " ++ node.URL ++ "\n")
        trace := tr ++ s.events
        directed := some i }
    | none =>
      attempts size remaining s.nodes w "All nodes are at capacity."
        (tr ++ s.events ++ [Event.sleep 1])

/-- The method `func (lb *LoadBalancer) HandleRequest(w, req)` (lines 54-70) on exact
integers and a pool given by value. The request enters through `requestSize`, the
value `len(req.URL.Path)` of line 55, its only use. With an exact counter the loop
`for i := 0; i <= lb.RetryLimit; i++` runs its body `RetryLimit + 1` times (not at all
when `RetryLimit < 0`) unless the body returns; `i` is not used in the body.
`LoadBalancer64.HandleRequest` is the method with a 64-bit counter. -/
def LoadBalancer.HandleRequest (lb : LoadBalancer) (w : ResponseWriter)
    (requestSize : Int) : Outcome :=
  attempts requestSize (lb.RetryLimit + 1).toNat lb.Nodes w "" []

/-- The handler signalled `CapacityExhausted`: control left the retry loop without a
node having admitted the request. -/
def Outcome.capacityExhausted (o : Outcome) : Bool :=
  o.directed.isNone

/-- The `AllowRequest` calls of a trace, in order: node index and returned boolean. -/
def allowCalls : List Event → List (Nat × Bool)
  | [] => []
  | Event.allowRequest i _ b :: tr => (i, b) :: allowCalls tr
  | Event.sleep _ :: tr => allowCalls tr

/-- The number of `time.Sleep` calls of a trace. -/
def sleepCount : List Event → Nat
  | [] => 0
  | Event.allowRequest _ _ _ :: tr => sleepCount tr
  | Event.sleep _ :: tr => sleepCount tr + 1

/-- The trace of `k` consecutive failed attempts on a pool of `len` nodes: in each
attempt every node is asked once, in list order, and rejects, and the attempt is
followed by a one-second sleep. -/
def failedAttempts (size : Int) (len : Nat) : Nat → List Event
  | 0 => []
  | k + 1 =>
    (List.range len).map (fun i => Event.allowRequest i size false)
      ++ Event.sleep 1 :: failedAttempts size len k

/-- The pool built in `main` (lines 85-88). -/
def mainNodes : List Node :=
  [ { URL := "http://node1.example.com", APIKey := "123456789", MaxBPM := 100, MaxRPM := 10,
      currentBPM := 0, currentRPM := 0, totalRequests := 0, totalBytes := 0 },
    { URL := "http://node2.example.com", APIKey := "412412312", MaxBPM := 50, MaxRPM := 5,
      currentBPM := 0, currentRPM := 0, totalRequests := 0, totalBytes := 0 } ]

/-- The load balancer built in `main` (line 90). -/
def mainLB : LoadBalancer :=
  { Nodes := mainNodes, RetryLimit := 3 }

/-- A node of Scenario C (one request per window) that has admitted `used` one-byte
requests in the current window. -/
def scenarioNode (url : String) (used : Int) : Node :=
  { URL := url, APIKey := "", MaxBPM := 10, MaxRPM := 1,
    currentBPM := used, currentRPM := used, totalRequests := used, totalBytes := used }

/-- The `AllowRequest` calls of a sequence of calls on a node, in call order: the cost
of each call and the boolean it returned. -/
def Node.results (n : Node) : List Op → List (Int × Bool)
  | [] => []
  | Op.allow cost :: ops =>
    (cost, (n.AllowRequest cost).1) :: (n.AllowRequest cost).2.results ops
  | Op.reset :: ops => n.ResetCounts.results ops

/-- The record that one firing of `MonitorUsage` prints for a node (line 78): its URL,
its `totalRequests` and its `totalBytes`. -/
structure UsageRecord where
  url : String
  requests : Int
  bytes : Int
  deriving DecidableEq

/-- One firing of `MonitorUsage` (the body of its endless loop, lines 75-80): one
record per node, in list order; no node is changed. -/
def MonitorUsage (nodes : List Node) : List UsageRecord :=
  nodes.map (fun node =>
    { url := node.URL, requests := node.totalRequests, bytes := node.totalBytes })

/-- The node of Scenario A: five requests and 100 bytes per window. -/
def scenarioANode : Node :=
  { URL := "a", APIKey := "", MaxBPM := 100, MaxRPM := 5,
    currentBPM := 0, currentRPM := 0, totalRequests := 0, totalBytes := 0 }

/-- The largest value of a 64-bit `int`. -/
def MaxInt64 : Int := 9223372036854775807

/-- The 64-bit two's-complement integer that holds the exact value `x` after
wraparound: the representative of `x` modulo `2 ^ 64` in the range from `-2 ^ 63` to
`2 ^ 63 - 1`. -/
def wrap64 (x : Int) : Int :=
  (x + 9223372036854775808) % 18446744073709551616 - 9223372036854775808

/-- The method `AllowRequest` (lines 23-40) with `int` and `int64` as 64-bit
two's-complement integers: every addition of the source wraps modulo `2 ^ 64`. -/
def Node.AllowRequest64 (n : Node) (size : Int) : Bool × Node :=
  if wrap64 (n.currentRPM + 1) > n.MaxRPM then
    (false, n)
  else if wrap64 (n.currentBPM + size) > n.MaxBPM then
    (false, n)
  else
    (true,
      { n with
        currentRPM := wrap64 (n.currentRPM + 1)
        currentBPM := wrap64 (n.currentBPM + size)
        totalRequests := wrap64 (n.totalRequests + 1)
        totalBytes := wrap64 (n.totalBytes + size) })

/-- One call on a node of 64-bit integers: the node after it. -/
def Node.step64 (n : Node) : Op → Node
  | Op.allow cost => (n.AllowRequest64 cost).2
  | Op.reset => n.ResetCounts

/-- A finite sequence of calls on a node of 64-bit integers. -/
def Node.run64 (n : Node) : List Op → Node
  | [] => n
  | op :: ops => (n.step64 op).run64 ops

/-- A node with zero counters, ten requests and 100 bytes per window. -/
def smallNode : Node :=
  { URL := "n", APIKey := "", MaxBPM := 100, MaxRPM := 10,
    currentBPM := 0, currentRPM := 0, totalRequests := 0, totalBytes := 0 }

/-- The smallest value of a 64-bit `int`. -/
def MinInt64 : Int := -9223372036854775808

/-- The exact integer `x` is a value of a 64-bit `int`: a sum whose exact value is `x`
does not wrap. -/
abbrev fits64 (x : Int) : Prop :=
  MinInt64 ≤ x ∧ x ≤ MaxInt64

/-- Every integer field of the node is a value of a 64-bit `int`, as the field types
`int` and `int64` of the struct say. -/
abbrev Node.is64 (n : Node) : Prop :=
  fits64 n.MaxBPM ∧ fits64 n.MaxRPM ∧ fits64 n.currentBPM ∧ fits64 n.currentRPM ∧
    fits64 n.totalRequests ∧ fits64 n.totalBytes

/-- Sequential `AllowRequest` calls on 64-bit integers with the given costs and no
reset in between: the returned booleans, in call order, and the node after the last
call. -/
def Node.allowMany64 (n : Node) : List Int → List Bool × Node
  | [] => ([], n)
  | c :: cs =>
    let r := n.AllowRequest64 c
    let rs := r.2.allowMany64 cs
    (r.1 :: rs.1, rs.2)

/-- The nodes in memory: the node that each address holds. A `*Node` is an address. -/
abbrev Store := Nat → Node

/-- The store after the node at address `p` has been overwritten with `n`. -/
def Store.set (st : Store) (p : Nat) (n : Node) : Store :=
  fun q => if q = p then n else st q

/-- A node with no capacity and no history, for the addresses that hold no node of
interest. -/
def zeroNode : Node :=
  { URL := "", APIKey := "", MaxBPM := 0, MaxRPM := 0,
    currentBPM := 0, currentRPM := 0, totalRequests := 0, totalBytes := 0 }

/-- The store that holds the given nodes at the addresses 0, 1, 2 and so on. -/
def storeOf (nodes : List Node) : Store :=
  fun p => nodes.getD p zeroNode

/-- The `LoadBalancer` struct (lines 49-52) with its pool as the slice of pointers
that it is: `Nodes` lists addresses, and an address may occur more than once. -/
structure LoadBalancer64 where
  Nodes : List Nat
  RetryLimit : Int
  deriving DecidableEq

/-- What one pass of the inner loop (lines 58-64) over a pool of pointers leaves
behind: the store, the chosen entry (list index and address), and the calls made. -/
structure Scan64 where
  store : Store
  chosen : Option (Nat × Nat)
  events : List Event

/-- The inner loop `for _, node := range lb.Nodes` (lines 58-64) on a pool of
pointers, entered at list index `i`: `AllowRequest` is called on the node behind each
pointer, in list order, until one call returns true. An `allowRequest` event carries
the address of the node that was asked. -/
def scan64 (size : Int) : Nat → List Nat → Store → Scan64
  | _, [], st => { store := st, chosen := none, events := [] }
  | i, p :: rest, st =>
    let r := (st p).AllowRequest64 size
    if r.1 then
      { store := st.set p r.2, chosen := some (i, p),
        events := [Event.allowRequest p size true] }
    else
      let s := scan64 size (i + 1) rest (st.set p r.2)
      { store := s.store, chosen := s.chosen,
        events := Event.allowRequest p size false :: s.events }

/-- What a call of `HandleRequest` on a pool of pointers leaves behind: the store, the
response, the trace of effects, and the control path taken: `directed = some (i, p)`
when the handler returned from inside the loop (line 62) for the pool entry at list
index `i`, which is the address `p`; `none` when control reached lines 68-69. -/
structure Outcome64 where
  store : Store
  w : ResponseWriter
  trace : List Event
  directed : Option (Nat × Nat)

/-- The handler signalled `CapacityExhausted`. -/
def Outcome64.capacityExhausted (o : Outcome64) : Bool :=
  o.directed.isNone

/-- The outer loop `for i := 0; i <= lb.RetryLimit; i++` of `HandleRequest` (lines
57-67), entered at the test of its condition with the counter at `i`, followed by
lines 68-69. The counter is a 64-bit `int`, so `i++` wraps. The loop need not end:
`fuel` bounds the number of times the condition is tested, and the result is `none`
when the fuel runs out before the handler returns. -/
def attempts64 (size : Int) (retryLimit : Int) (ptrs : List Nat) :
    Nat → Int → Store → ResponseWriter → String → List Event → Option Outcome64
  | 0, _, _, _, _, _ => none
  | fuel + 1, i, st, w, lastError, tr =>
    if i ≤ retryLimit then
      let s := scan64 size 0 ptrs st
      match s.chosen with
      | some (idx, p) =>
        some { store := s.store
               w := w.Write ("Request directed to " ++ (s.store p).URL ++ "\n")
               trace := tr ++ s.events
               directed := some (idx, p) }
      | none =>
        attempts64 size retryLimit ptrs fuel (wrap64 (i + 1)) s.store w
          "All nodes are at capacity." (tr ++ s.events ++ [Event.sleep 1])
    else
      some { store := st
             w := httpError (Fprintln w lastError) lastError StatusServiceUnavailable
             trace := tr
             directed := none }

/-- The method `func (lb *LoadBalancer) HandleRequest(w, req)` (lines 54-70) on 64-bit
integers and a pool of pointers into the store `st`. The request enters through
`requestSize`, the value `len(req.URL.Path)` of line 55, its only use. The result is
`none` when the handler has not returned within `fuel` tests of the loop condition. -/
def LoadBalancer64.HandleRequest (lb : LoadBalancer64) (st : Store) (w : ResponseWriter)
    (requestSize : Int) (fuel : Nat) : Option Outcome64 :=
  attempts64 requestSize lb.RetryLimit lb.Nodes fuel 0 st w "" []

/-- The `AllowRequest` calls of one pass over a pool of pointers in which every node
rejects: the addresses in list order, each call returning false. -/
def rejectedPass (ptrs : List Nat) : List (Nat × Bool) :=
  ptrs.map (fun p => (p, false))

/-- The `AllowRequest` calls of `k` consecutive passes in which every node rejects. -/
def rejectedPasses (ptrs : List Nat) : Nat → List (Nat × Bool)
  | 0 => []
  | k + 1 => rejectedPass ptrs ++ rejectedPasses ptrs k

/-- The trace of `k` consecutive failed attempts on a pool of pointers: in each
attempt every entry is asked once, in list order, and rejects, and the attempt is
followed by a one-second sleep. -/
def failedAttempts64 (size : Int) (ptrs : List Nat) : Nat → List Event
  | 0 => []
  | k + 1 =>
    ptrs.map (fun p => Event.allowRequest p size false)
      ++ Event.sleep 1 :: failedAttempts64 size ptrs k

/-- The number of further requests of cost `c` that a node has room for in its
current window, whatever its counters. -/
def room (c : Int) (n : Node) : Nat :=
  (min (n.MaxRPM - n.currentRPM) ((n.MaxBPM - n.currentBPM) / c)).toNat

/-- The first-fit order in which further requests of cost `c` fill a pool, whatever
the counters of its nodes. -/
def fillFrom64 (c : Int) (st : Store) : Nat → List Nat → List (Option (Nat × Nat))
  | _, [] => []
  | i, p :: rest =>
    List.replicate (room c (st p)) (some (i, p)) ++ fillFrom64 c st (i + 1) rest

/-- The node `smallNode` after one admitted 1-byte request. -/
def usedNode : Node :=
  { URL := "n", APIKey := "", MaxBPM := 100, MaxRPM := 10,
    currentBPM := 1, currentRPM := 1, totalRequests := 1, totalBytes := 1 }

/-- A node with zero counters, ten requests and `MaxInt64` bytes per window. -/
def wideNode : Node :=
  { URL := "w", APIKey := "", MaxBPM := MaxInt64, MaxRPM := 10,
    currentBPM := 0, currentRPM := 0, totalRequests := 0, totalBytes := 0 }

/-- A node with zero counters whose request limit is `MaxInt64` and whose byte limit
is zero. -/
def spinNode : Node :=
  { URL := "s", APIKey := "", MaxBPM := 0, MaxRPM := MaxInt64,
    currentBPM := 0, currentRPM := 0, totalRequests := 0, totalBytes := 0 }

/-- A node with zero counters whose two limits are `MaxInt64`. -/
def fullNode : Node :=
  { URL := "f", APIKey := "", MaxBPM := MaxInt64, MaxRPM := MaxInt64,
    currentBPM := 0, currentRPM := 0, totalRequests := 0, totalBytes := 0 }

/-- A rejected call returns the node it was given. -/
theorem AllowRequest_snd_of_reject (n : Node) (cost : Int)
    (h : (n.AllowRequest cost).1 = false) : (n.AllowRequest cost).2 = n := by
  by_cases h1 : n.currentRPM + 1 > n.MaxRPM
  · simp [Node.AllowRequest, h1]
  · by_cases h2 : n.currentBPM + cost > n.MaxBPM
    · simp [Node.AllowRequest, h1, h2]
    · simp [Node.AllowRequest, h1, h2] at h

/-- C2: a rejected `AllowRequest` leaves the node exactly as it was: the node after
the call equals the node before it, hence so do `currentRPM`, `currentBPM`,
`totalRequests`, `totalBytes`, `MaxRPM`, `MaxBPM`, `URL` and `APIKey`. -/
theorem AllowRequest_reject_unchanged (n : Node) (cost : Int)
    (h : (n.AllowRequest cost).1 = false) :
    (n.AllowRequest cost).2 = n ∧
    (n.AllowRequest cost).2.currentRPM = n.currentRPM ∧
    (n.AllowRequest cost).2.currentBPM = n.currentBPM ∧
    (n.AllowRequest cost).2.totalRequests = n.totalRequests ∧
    (n.AllowRequest cost).2.totalBytes = n.totalBytes ∧
    (n.AllowRequest cost).2.MaxRPM = n.MaxRPM ∧
    (n.AllowRequest cost).2.MaxBPM = n.MaxBPM ∧
    (n.AllowRequest cost).2.URL = n.URL ∧
    (n.AllowRequest cost).2.APIKey = n.APIKey := by
  have key : (n.AllowRequest cost).2 = n := AllowRequest_snd_of_reject n cost h
  simp [key]

/-- An instance of C2: the node of Scenario A after five admissions rejects a sixth
request and keeps its state. -/
theorem AllowRequest_reject_unchanged_witness :
    (({ URL := "a", APIKey := "k", MaxBPM := 100, MaxRPM := 5, currentBPM := 50,
        currentRPM := 5, totalRequests := 5, totalBytes := 50 } : Node).AllowRequest 10).2
      = { URL := "a", APIKey := "k", MaxBPM := 100, MaxRPM := 5, currentBPM := 50,
          currentRPM := 5, totalRequests := 5, totalBytes := 50 } :=
  (AllowRequest_reject_unchanged
    { URL := "a", APIKey := "k", MaxBPM := 100, MaxRPM := 5, currentBPM := 50,
      currentRPM := 5, totalRequests := 5, totalBytes := 50 } 10 (by decide)).1

/-- Each call keeps the limits and, when the limits are non-negative, keeps both
current-window counters within them. -/
theorem step_within (m : Node) (op : Op) (hR : 0 ≤ m.MaxRPM) (hB : 0 ≤ m.MaxBPM)
    (h1 : m.currentRPM ≤ m.MaxRPM) (h2 : m.currentBPM ≤ m.MaxBPM) :
    (m.step op).MaxRPM = m.MaxRPM ∧ (m.step op).MaxBPM = m.MaxBPM ∧
    (m.step op).currentRPM ≤ m.MaxRPM ∧ (m.step op).currentBPM ≤ m.MaxBPM := by
  cases op with
  | allow cost =>
    simp only [Node.step, Node.AllowRequest]
    split_ifs with c1 c2
    · exact ⟨rfl, rfl, h1, h2⟩
    · exact ⟨rfl, rfl, h1, h2⟩
    · refine ⟨rfl, rfl, ?_, ?_⟩
      · show m.currentRPM + 1 ≤ m.MaxRPM
        omega
      · show m.currentBPM + cost ≤ m.MaxBPM
        omega
  | reset =>
    exact ⟨rfl, rfl, hR, hB⟩

/-- A sequence of calls keeps the limits and keeps both counters within them. -/
theorem run_within (ops : List Op) :
    ∀ m : Node, 0 ≤ m.MaxRPM → 0 ≤ m.MaxBPM →
      m.currentRPM ≤ m.MaxRPM → m.currentBPM ≤ m.MaxBPM →
      (m.run ops).MaxRPM = m.MaxRPM ∧ (m.run ops).MaxBPM = m.MaxBPM ∧
      (m.run ops).currentRPM ≤ m.MaxRPM ∧ (m.run ops).currentBPM ≤ m.MaxBPM := by
  induction ops with
  | nil => intro m _ _ h1 h2; exact ⟨rfl, rfl, h1, h2⟩
  | cons op ops ih =>
    intro m hR hB h1 h2
    obtain ⟨e1, e2, s1, s2⟩ := step_within m op hR hB h1 h2
    have := ih (m.step op) (by omega) (by omega) (by omega) (by omega)
    simp only [Node.run]
    rw [e1, e2] at this
    exact this

/-- C4: a node that starts with both current-window counters at zero and positive
limits satisfies `currentRPM ≤ MaxRPM` and `currentBPM ≤ MaxBPM` initially, every
single `AllowRequest` or `ResetCounts` call preserves the two bounds (and the
limits), and so the bounds hold after every finite sequence of such calls, in any
order and whatever the costs. -/
theorem counters_within_limits (n : Node) (hr : n.currentRPM = 0) (hb : n.currentBPM = 0)
    (hR : 0 < n.MaxRPM) (hB : 0 < n.MaxBPM) :
    (n.currentRPM ≤ n.MaxRPM ∧ n.currentBPM ≤ n.MaxBPM) ∧
    (∀ (m : Node) (op : Op), 0 < m.MaxRPM → 0 < m.MaxBPM →
      m.currentRPM ≤ m.MaxRPM → m.currentBPM ≤ m.MaxBPM →
      (m.step op).currentRPM ≤ (m.step op).MaxRPM ∧
      (m.step op).currentBPM ≤ (m.step op).MaxBPM ∧
      (m.step op).MaxRPM = m.MaxRPM ∧ (m.step op).MaxBPM = m.MaxBPM) ∧
    (∀ ops : List Op,
      (n.run ops).currentRPM ≤ (n.run ops).MaxRPM ∧
      (n.run ops).currentBPM ≤ (n.run ops).MaxBPM ∧
      (n.run ops).MaxRPM = n.MaxRPM ∧ (n.run ops).MaxBPM = n.MaxBPM) := by
  refine ⟨⟨by omega, by omega⟩, ?_, ?_⟩
  · intro m op mR mB h1 h2
    obtain ⟨e1, e2, s1, s2⟩ := step_within m op (by omega) (by omega) h1 h2
    exact ⟨by omega, by omega, e1, e2⟩
  · intro ops
    obtain ⟨e1, e2, s1, s2⟩ := run_within ops n (by omega) (by omega) (by omega) (by omega)
    exact ⟨by omega, by omega, e1, e2⟩

/-- An instance of C4: the first node of `main` after eleven 10-byte requests, a
reset and one more request. -/
theorem counters_within_limits_witness :
    ((({ URL := "http://node1.example.com", APIKey := "123456789", MaxBPM := 100,
         MaxRPM := 10, currentBPM := 0, currentRPM := 0, totalRequests := 0,
         totalBytes := 0 } : Node).run
        (List.replicate 11 (Op.allow 10) ++ [Op.reset, Op.allow 10])).currentRPM ≤ 10) ∧
    ((({ URL := "http://node1.example.com", APIKey := "123456789", MaxBPM := 100,
         MaxRPM := 10, currentBPM := 0, currentRPM := 0, totalRequests := 0,
         totalBytes := 0 } : Node).run
        (List.replicate 11 (Op.allow 10) ++ [Op.reset, Op.allow 10])).currentBPM ≤ 100) := by
  have h := (counters_within_limits
    { URL := "http://node1.example.com", APIKey := "123456789", MaxBPM := 100,
      MaxRPM := 10, currentBPM := 0, currentRPM := 0, totalRequests := 0,
      totalBytes := 0 } rfl rfl (by decide) (by decide)).2.2
    (List.replicate 11 (Op.allow 10) ++ [Op.reset, Op.allow 10])
  obtain ⟨a, b, c, d⟩ := h
  rw [c] at a
  rw [d] at b
  exact ⟨a, b⟩

/-! ### The inner loop -/

/-- A pass in which every node rejects changes no node, chooses none, and calls
`AllowRequest` once on each node, in list order. -/
theorem scan_all_reject (size : Int) (nodes : List Node) :
    ∀ k : Nat, (∀ n ∈ nodes, (n.AllowRequest size).1 = false) →
      scan size k nodes =
        { nodes := nodes, chosen := none,
          events := (List.range' k nodes.length).map
            (fun i => Event.allowRequest i size false) } := by
  induction nodes with
  | nil => intro k _; rfl
  | cons n rest ih =>
    intro k h
    have hn : (n.AllowRequest size).1 = false := h n (List.mem_cons_self _ _)
    have hrest : ∀ m ∈ rest, (m.AllowRequest size).1 = false :=
      fun m hm => h m (List.mem_cons_of_mem _ hm)
    simp only [scan, hn, ih (k + 1) hrest, AllowRequest_snd_of_reject n size hn,
      List.length_cons, List.range'_succ, List.map_cons]
    simp

/-! ### The retry loop -/

/-- The loop exit message: the initial value of `lastError` when the loop body never
ran, the fixed message otherwise. -/
theorem attempts_all_reject (size : Int) (nodes : List Node)
    (hall : ∀ n ∈ nodes, (n.AllowRequest size).1 = false) (w : ResponseWriter) :
    ∀ (r : Nat) (lastError : String) (tr : List Event),
      attempts size r nodes w lastError tr =
        { nodes := nodes
          w := httpError
            (Fprintln w (if r = 0 then lastError else "All nodes are at capacity."))
            (if r = 0 then lastError else "All nodes are at capacity.")
            StatusServiceUnavailable
          trace := tr ++ failedAttempts size nodes.length r
          directed := none } := by
  intro r
  induction r with
  | zero => intro lastError tr; simp [attempts, failedAttempts]
  | succ r ih =>
    intro lastError tr
    simp only [attempts, scan_all_reject size nodes 0 hall, ih, failedAttempts,
      List.range_eq_range']
    simp

theorem allowCalls_append (xs ys : List Event) :
    allowCalls (xs ++ ys) = allowCalls xs ++ allowCalls ys := by
  induction xs with
  | nil => rfl
  | cons e xs ih => cases e <;> simp [allowCalls, ih]

theorem sleepCount_append (xs ys : List Event) :
    sleepCount (xs ++ ys) = sleepCount xs + sleepCount ys := by
  induction xs with
  | nil => simp [sleepCount]
  | cons e xs ih =>
    cases e with
    | allowRequest i c b => simp [sleepCount, ih]
    | sleep t => simp [sleepCount, ih]; omega

theorem allowCalls_map_allow (size : Int) (b : Bool) (l : List Nat) :
    allowCalls (l.map (fun i => Event.allowRequest i size b)) = l.map (fun i => (i, b)) := by
  induction l with
  | nil => rfl
  | cons a l ih => simp [allowCalls, ih]

theorem sleepCount_map_allow (size : Int) (b : Bool) (l : List Nat) :
    sleepCount (l.map (fun i => Event.allowRequest i size b)) = 0 := by
  induction l with
  | nil => rfl
  | cons a l ih => simp [sleepCount, ih]

theorem sleepCount_failedAttempts (size : Int) (len k : Nat) :
    sleepCount (failedAttempts size len k) = k := by
  induction k with
  | zero => rfl
  | succ k ih =>
    simp [failedAttempts, sleepCount_append, sleepCount_map_allow, sleepCount, ih]

/-- Every failed attempt is followed by a sleep, the last one included: a dispatch in
which every node rejects sleeps `RetryLimit + 1` times before it fails. -/
theorem sleepCount_exhausted (lb : LoadBalancer) (w : ResponseWriter) (cost : Int)
    (hall : ∀ n ∈ lb.Nodes, (n.AllowRequest cost).1 = false) :
    sleepCount (lb.HandleRequest w cost).trace = (lb.RetryLimit + 1).toNat := by
  have hrun := attempts_all_reject cost lb.Nodes hall w (lb.RetryLimit + 1).toNat "" []
  have hH : lb.HandleRequest w cost
      = attempts cost (lb.RetryLimit + 1).toNat lb.Nodes w "" [] := rfl
  rw [← hH] at hrun
  rw [hrun]
  simp [sleepCount_failedAttempts, sleepCount]

/-- The response of a dispatch in which every node rejects, on a fresh writer: line 68
writes the message first, which commits status 200, so the `WriteHeader(503)` inside
`http.Error` on line 69 comes too late and only the message is written again. -/
theorem response_exhausted (lb : LoadBalancer) (cost : Int) (hR : 0 ≤ lb.RetryLimit)
    (hall : ∀ n ∈ lb.Nodes, (n.AllowRequest cost).1 = false) :
    (lb.HandleRequest ResponseWriter.fresh cost).w =
      { wroteHeader := true, status := 200,
        body := "" ++ ("All nodes are at capacity." ++ "\n")
          ++ ("All nodes are at capacity." ++ "\n") } := by
  have hrun := attempts_all_reject cost lb.Nodes hall ResponseWriter.fresh
    (lb.RetryLimit + 1).toNat "" []
  have hH : lb.HandleRequest ResponseWriter.fresh cost
      = attempts cost (lb.RetryLimit + 1).toNat lb.Nodes ResponseWriter.fresh "" [] := rfl
  rw [← hH] at hrun
  have hne : ¬ (lb.RetryLimit + 1).toNat = 0 := by omega
  rw [hrun]
  simp only [hne, if_false]
  rfl

/-- C8, the code at the third dispatch of Scenario C (pool `[A, B]`, both nodes
exhausted, `RetryLimit = 0`, cost 1): the single attempt asks both nodes, and then
the handler sleeps one second before it fails, so one sleep occurs where the claim
has none. -/
theorem HandleRequest_sleeps_after_last_attempt :
    (LoadBalancer.HandleRequest
      { Nodes := [scenarioNode "A" 1, scenarioNode "B" 1], RetryLimit := 0 }
      ResponseWriter.fresh 1).trace
      = [Event.allowRequest 0 1 false, Event.allowRequest 1 1 false, Event.sleep 1] ∧
    sleepCount (LoadBalancer.HandleRequest
      { Nodes := [scenarioNode "A" 1, scenarioNode "B" 1], RetryLimit := 0 }
      ResponseWriter.fresh 1).trace = 1 ∧
    (LoadBalancer.HandleRequest
      { Nodes := [scenarioNode "A" 1, scenarioNode "B" 1], RetryLimit := 0 }
      ResponseWriter.fresh 1).capacityExhausted = true := by
  decide

/-- C9, the code at a 101-byte request on the pool of `main`: no node admits on any
of the four attempts, and the response that leaves the handler has status 200, not
503, with the fixed message written twice. -/
theorem HandleRequest_exhausted_status :
    (mainLB.HandleRequest ResponseWriter.fresh 101).capacityExhausted = true ∧
    (mainLB.HandleRequest ResponseWriter.fresh 101).w.status = 200 ∧
    (mainLB.HandleRequest ResponseWriter.fresh 101).w.status ≠ StatusServiceUnavailable ∧
    (mainLB.HandleRequest ResponseWriter.fresh 101).w.body
      = "All nodes are at capacity.\nAll nodes are at capacity.\n" := by
  decide

/-! ### Lifetime totals and window reset -/

/-- C12: `ResetCounts` yields a node with `currentRPM = 0` and `currentBPM = 0` whose
`totalRequests`, `totalBytes`, `MaxRPM`, `MaxBPM`, `URL` and `APIKey` are those of the
node before the call. -/
theorem ResetCounts_frame (n : Node) :
    n.ResetCounts.currentRPM = 0 ∧ n.ResetCounts.currentBPM = 0 ∧
    n.ResetCounts.totalRequests = n.totalRequests ∧
    n.ResetCounts.totalBytes = n.totalBytes ∧
    n.ResetCounts.MaxRPM = n.MaxRPM ∧ n.ResetCounts.MaxBPM = n.MaxBPM ∧
    n.ResetCounts.URL = n.URL ∧ n.ResetCounts.APIKey = n.APIKey :=
  ⟨rfl, rfl, rfl, rfl, rfl, rfl, rfl, rfl⟩

/-- C13: `ResetCounts` is idempotent: resetting twice is resetting once, and resetting
a node whose current-window counters are already zero leaves it as it is. -/
theorem ResetCounts_idempotent (s : Node) :
    s.ResetCounts.ResetCounts = s.ResetCounts ∧
    (s.currentRPM = 0 → s.currentBPM = 0 → s.ResetCounts = s) := by
  refine ⟨rfl, ?_⟩
  intro hr hb
  cases s
  simp only [Node.ResetCounts] at hr hb ⊢
  simp [hr, hb]

/-- An instance of C13 on the node of Scenario A, whose counters are zero. -/
theorem ResetCounts_idempotent_witness : scenarioANode.ResetCounts = scenarioANode :=
  (ResetCounts_idempotent scenarioANode).2 rfl rfl

/-- C14, as the claim states it, fails: the second node of `main` (50 bytes and 5
requests per window, both limits positive) rejects a 60-byte request, and rejects the
identical request again after `ResetCounts`. -/
theorem reset_then_retry_counterexample :
    (({ URL := "http://node2.example.com", APIKey := "412412312", MaxBPM := 50, MaxRPM := 5,
        currentBPM := 0, currentRPM := 0, totalRequests := 0, totalBytes := 0 } : Node).AllowRequest
      60).1 = false ∧
    (({ URL := "http://node2.example.com", APIKey := "412412312", MaxBPM := 50, MaxRPM := 5,
        currentBPM := 0, currentRPM := 0, totalRequests := 0,
        totalBytes := 0 } : Node).ResetCounts.AllowRequest 60).1 = false := by
  decide

/-- C14, amended: for a node with positive limits and a cost with
`0 ≤ cost ≤ MaxBPM`, if `AllowRequest(cost)` returned false in some state of the node,
then after `ResetCounts` the identical `AllowRequest(cost)` returns true. (Of the
bounds only `0 < MaxRPM` and `cost ≤ MaxBPM` are needed.) -/
theorem reset_then_retry_admits (n : Node) (cost : Int) (hR : 0 < n.MaxRPM)
    (hc : cost ≤ n.MaxBPM) :
    (n.AllowRequest cost).1 = false → (n.ResetCounts.AllowRequest cost).1 = true := by
  intro _
  have h1 : ¬ n.MaxRPM < 1 := by omega
  have h2 : ¬ n.MaxBPM < cost := by omega
  simp [Node.AllowRequest, Node.ResetCounts, h1, h2]

/-- An instance of the amended C14 (Scenario D): the node of Scenario A after five
admitted 10-byte requests rejects a sixth, and admits it after a reset. -/
theorem reset_then_retry_admits_witness :
    ((scenarioANode.run (List.replicate 5 (Op.allow 10))).AllowRequest 10).1 = false ∧
    ((scenarioANode.run (List.replicate 5 (Op.allow 10))).ResetCounts.AllowRequest 10).1
      = true :=
  ⟨by decide,
   reset_then_retry_admits (scenarioANode.run (List.replicate 5 (Op.allow 10))) 10
     (by decide) (by decide) (by decide)⟩

/-! ### 64-bit integers -/

/-- A value in the 64-bit range is not changed by wraparound. -/
theorem wrap64_of_range (x : Int) (h1 : -9223372036854775808 ≤ x)
    (h2 : x ≤ 9223372036854775807) : wrap64 x = x := by
  unfold wrap64
  omega

/-- While no addition leaves the 64-bit range, the 64-bit method is the method on
exact integers. -/
theorem AllowRequest64_eq (n : Node) (size : Int)
    (h1 : -9223372036854775808 ≤ n.currentRPM + 1) (h2 : n.currentRPM + 1 ≤ MaxInt64)
    (h3 : -9223372036854775808 ≤ n.currentBPM + size) (h4 : n.currentBPM + size ≤ MaxInt64)
    (h5 : -9223372036854775808 ≤ n.totalRequests + 1) (h6 : n.totalRequests + 1 ≤ MaxInt64)
    (h7 : -9223372036854775808 ≤ n.totalBytes + size) (h8 : n.totalBytes + size ≤ MaxInt64) :
    n.AllowRequest64 size = n.AllowRequest size := by
  unfold MaxInt64 at h2 h4 h6 h8
  simp only [Node.AllowRequest64, Node.AllowRequest, wrap64_of_range _ h1 h2,
    wrap64_of_range _ h3 h4, wrap64_of_range _ h5 h6, wrap64_of_range _ h7 h8]

/-- C16, as the claim states it, fails: on `smallNode`, a node with zero counters and
the positive limits `MaxRPM = 10` and `MaxBPM = 100`, after `AllowRequest(1)` the call
`AllowRequest(MaxInt64)` computes `1 + MaxInt64`, which wraps to `-2 ^ 63`; this is
not above `MaxBPM`, so the call is admitted and leaves `currentBPM` negative. -/
theorem wraparound_counterexample :
    (smallNode.currentRPM = 0 ∧ smallNode.currentBPM = 0 ∧
      0 < smallNode.MaxRPM ∧ 0 < smallNode.MaxBPM) ∧
    ((0 : Int) ≤ 1 ∧ (1 : Int) ≤ MaxInt64 ∧ 0 ≤ MaxInt64 ∧ MaxInt64 ≤ MaxInt64) ∧
    ((smallNode.run64 [Op.allow 1]).AllowRequest64 MaxInt64).1 = true ∧
    (smallNode.run64 [Op.allow 1, Op.allow MaxInt64]).currentBPM = -9223372036854775808 ∧
    ¬ (0 ≤ (smallNode.run64 [Op.allow 1, Op.allow MaxInt64]).currentBPM) := by
  decide

/-- Why the amended C16 asks for `MaxRPM < MaxInt64`: on a node whose request limit is
`MaxInt64` and whose request counter has reached it, `currentRPM + 1` wraps to
`-2 ^ 63`, the guard of line 27 does not fire, and the admitted call leaves
`currentRPM` negative. -/
theorem request_counter_wraps :
    (({ URL := "n", APIKey := "", MaxBPM := 100, MaxRPM := MaxInt64, currentBPM := 0,
        currentRPM := MaxInt64, totalRequests := 0, totalBytes := 0 } : Node).AllowRequest64
      0).1 = true ∧
    (({ URL := "n", APIKey := "", MaxBPM := 100, MaxRPM := MaxInt64, currentBPM := 0,
        currentRPM := MaxInt64, totalRequests := 0, totalBytes := 0 } : Node).AllowRequest64
      0).2.currentRPM = -9223372036854775808 := by
  decide

/-- One call on a node of 64-bit integers keeps the limits and keeps both
current-window counters between zero and their limits, when the request limit is
below `MaxInt64` and the cost cannot carry the byte counter past `MaxInt64`. -/
theorem step64_bounds (m : Node) (op : Op) (hR2 : m.MaxRPM < MaxInt64)
    (hc : ∀ c : Int, op = Op.allow c → 0 ≤ c ∧ c ≤ MaxInt64 - m.MaxBPM)
    (r0 : 0 ≤ m.currentRPM) (r1 : m.currentRPM ≤ m.MaxRPM)
    (b0 : 0 ≤ m.currentBPM) (b1 : m.currentBPM ≤ m.MaxBPM) :
    (m.step64 op).MaxRPM = m.MaxRPM ∧ (m.step64 op).MaxBPM = m.MaxBPM ∧
    0 ≤ (m.step64 op).currentRPM ∧ (m.step64 op).currentRPM ≤ m.MaxRPM ∧
    0 ≤ (m.step64 op).currentBPM ∧ (m.step64 op).currentBPM ≤ m.MaxBPM := by
  unfold MaxInt64 at hR2 hc
  cases op with
  | allow cost =>
    obtain ⟨c0, c1⟩ := hc cost rfl
    have e1 : wrap64 (m.currentRPM + 1) = m.currentRPM + 1 :=
      wrap64_of_range _ (by omega) (by omega)
    have e2 : wrap64 (m.currentBPM + cost) = m.currentBPM + cost :=
      wrap64_of_range _ (by omega) (by omega)
    simp only [Node.step64, Node.AllowRequest64, e1, e2]
    by_cases h1 : m.currentRPM + 1 > m.MaxRPM
    · simp only [h1, if_true]
      exact ⟨trivial, trivial, r0, r1, b0, b1⟩
    · by_cases h2 : m.currentBPM + cost > m.MaxBPM
      · simp only [h1, h2, if_true, if_false]
        exact ⟨trivial, trivial, r0, r1, b0, b1⟩
      · simp only [h1, h2, if_false]
        exact ⟨trivial, trivial, by omega, by omega, by omega, by omega⟩
  | reset =>
    exact ⟨rfl, rfl, le_refl _, by show (0 : Int) ≤ m.MaxRPM; omega, le_refl _,
      by show (0 : Int) ≤ m.MaxBPM; omega⟩

theorem run64_bounds (ops : List Op) :
    ∀ m : Node, m.MaxRPM < MaxInt64 →
      (∀ c : Int, Op.allow c ∈ ops → 0 ≤ c ∧ c ≤ MaxInt64 - m.MaxBPM) →
      0 ≤ m.currentRPM → m.currentRPM ≤ m.MaxRPM →
      0 ≤ m.currentBPM → m.currentBPM ≤ m.MaxBPM →
      0 ≤ (m.run64 ops).currentRPM ∧ (m.run64 ops).currentRPM ≤ m.MaxRPM ∧
      0 ≤ (m.run64 ops).currentBPM ∧ (m.run64 ops).currentBPM ≤ m.MaxBPM := by
  induction ops with
  | nil => intro m _ _ r0 r1 b0 b1; exact ⟨r0, r1, b0, b1⟩
  | cons op ops ih =>
    intro m hR2 hc r0 r1 b0 b1
    obtain ⟨e1, e2, s0, s1, t0, t1⟩ := step64_bounds m op hR2
      (fun c hop => hc c (by rw [hop]; exact List.mem_cons_self _ _)) r0 r1 b0 b1
    have := ih (m.step64 op) (by rw [e1]; exact hR2)
      (fun c hmem => by rw [e2]; exact hc c (List.mem_cons_of_mem _ hmem))
      s0 (by rw [e1]; exact s1) t0 (by rw [e2]; exact t1)
    rw [e1, e2] at this
    simpa only [Node.run64] using this

/-- C16, amended: with Go's `int` as a 64-bit two's-complement integer, for a node
that starts with zero counters and positive limits, with `MaxRPM < MaxInt64`, and a
finite sequence of `AllowRequest(cost)` calls with `0 ≤ cost ≤ MaxInt64 - MaxBPM` and
`ResetCounts` calls, `currentRPM` and `currentBPM` are non-negative (and within their
limits) after every call of the sequence. -/
theorem counters_nonneg64 (n : Node) (hr : n.currentRPM = 0) (hb : n.currentBPM = 0)
    (hR : 0 < n.MaxRPM) (hR2 : n.MaxRPM < MaxInt64) (hB : 0 < n.MaxBPM) (ops : List Op)
    (hops : ∀ c : Int, Op.allow c ∈ ops → 0 ≤ c ∧ c ≤ MaxInt64 - n.MaxBPM) :
    ∀ pre : List Op, pre <+: ops →
      0 ≤ (n.run64 pre).currentRPM ∧ (n.run64 pre).currentRPM ≤ n.MaxRPM ∧
      0 ≤ (n.run64 pre).currentBPM ∧ (n.run64 pre).currentBPM ≤ n.MaxBPM := by
  intro pre hpre
  exact run64_bounds pre n hR2 (fun c hmem => hops c (hpre.subset hmem))
    (by omega) (by omega) (by omega) (by omega)

/-- An instance of the amended C16 on `smallNode`: after a 40-byte and a 70-byte
request, a reset and a 100-byte request the counters are not negative. -/
theorem counters_nonneg64_witness :
    0 ≤ (smallNode.run64 [Op.allow 40, Op.allow 70, Op.reset, Op.allow 100]).currentRPM ∧
    0 ≤ (smallNode.run64 [Op.allow 40, Op.allow 70, Op.reset, Op.allow 100]).currentBPM := by
  have h := counters_nonneg64 smallNode rfl rfl (by decide) (by decide) (by decide)
    [Op.allow 40, Op.allow 70, Op.reset, Op.allow 100]
    (by
      intro c hc
      simp at hc
      have e : smallNode.MaxBPM = 100 := rfl
      rw [e]
      unfold MaxInt64
      omega)
    [Op.allow 40, Op.allow 70, Op.reset, Op.allow 100] (List.prefix_refl _)
  exact ⟨h.1, h.2.2.1⟩

/-! ### Lifetime totals as cumulative admissions -/

/-- A sequence of calls adds to `totalRequests` the number of admitted calls and to
`totalBytes` the sum of their costs, and keeps the URL. -/
theorem run_totals_eq (ops : List Op) :
    ∀ m : Node,
      (m.run ops).totalRequests
        = m.totalRequests + (((m.results ops).filter (fun r => r.2)).length : Int) ∧
      (m.run ops).totalBytes
        = m.totalBytes + (((m.results ops).filter (fun r => r.2)).map (fun r => r.1)).sum ∧
      (m.run ops).URL = m.URL := by
  induction ops with
  | nil => intro m; simp [Node.run, Node.results]
  | cons op ops ih =>
    intro m
    cases op with
    | allow cost =>
      obtain ⟨i1, i2, i3⟩ := ih (m.AllowRequest cost).2
      simp only [Node.run, Node.step, Node.results]
      rw [i1, i2, i3]
      by_cases h1 : m.currentRPM + 1 > m.MaxRPM
      · simp [Node.AllowRequest, h1]
      · by_cases h2 : m.currentBPM + cost > m.MaxBPM
        · simp [Node.AllowRequest, h1, h2]
        · simp only [Node.AllowRequest, h1, h2, if_false, List.filter_cons_of_pos,
            List.length_cons, List.map_cons, List.sum_cons]
          refine ⟨?_, ?_, trivial⟩
          · push_cast; ring
          · ring
    | reset =>
      obtain ⟨i1, i2, i3⟩ := ih m.ResetCounts
      simp only [Node.run, Node.step, Node.results]
      rw [i1, i2, i3]
      exact ⟨rfl, rfl, rfl⟩

/-- C19: for a node that starts with all counters at zero (only the two lifetime
totals need to be zero), after every finite
sequence of `AllowRequest` calls interleaved with any number of `ResetCounts` calls
(integers exact, that is, no overflow), the record that the usage monitor prints for
the node carries its URL, as `totalRequests` the number of calls of the sequence that
returned true, and as `totalBytes` the sum of the costs of exactly those calls. -/
theorem monitor_reports_admissions (n : Node) (htr : n.totalRequests = 0)
    (htb : n.totalBytes = 0) (ops : List Op) :
    (n.run ops).totalRequests = (((n.results ops).filter (fun r => r.2)).length : Int) ∧
    (n.run ops).totalBytes
      = (((n.results ops).filter (fun r => r.2)).map (fun r => r.1)).sum ∧
    MonitorUsage [n.run ops] =
      [{ url := n.URL
         requests := (((n.results ops).filter (fun r => r.2)).length : Int)
         bytes := (((n.results ops).filter (fun r => r.2)).map (fun r => r.1)).sum }] := by
  obtain ⟨i1, i2, i3⟩ := run_totals_eq ops n
  rw [htr, zero_add] at i1
  rw [htb, zero_add] at i2
  refine ⟨i1, i2, ?_⟩
  simp only [MonitorUsage, List.map_cons, List.map_nil, i1, i2, i3]

/-- An instance of C19 on the node of Scenario A: of seven 10-byte requests with a
reset after the sixth, the first five and the last one are admitted, and the monitor
reports 6 requests and 60 bytes. -/
theorem monitor_reports_admissions_witness :
    scenarioANode.results (List.replicate 6 (Op.allow 10) ++ [Op.reset, Op.allow 10])
      = [(10, true), (10, true), (10, true), (10, true), (10, true), (10, false),
         (10, true)] ∧
    MonitorUsage
      [scenarioANode.run (List.replicate 6 (Op.allow 10) ++ [Op.reset, Op.allow 10])]
      = [{ url := "a", requests := 6, bytes := 60 }] := by
  refine ⟨by decide, ?_⟩
  rw [(monitor_reports_admissions scenarioANode rfl rfl
    (List.replicate 6 (Op.allow 10) ++ [Op.reset, Op.allow 10])).2.2]
  decide

/-! ### The method on 64-bit integers -/

/-- Wraparound yields a 64-bit value. -/
theorem wrap64_fits (x : Int) : fits64 (wrap64 x) := by
  unfold fits64 MinInt64 MaxInt64 wrap64
  omega

/-- A sum that fits is not changed by wraparound. -/
theorem wrap64_eq (x : Int) (h : fits64 x) : wrap64 x = x := by
  obtain ⟨h1, h2⟩ := h
  unfold MinInt64 at h1
  unfold MaxInt64 at h2
  unfold wrap64
  omega

/-- A rejected call on 64-bit integers returns the node it was given: the 64-bit
counterpart of `AllowRequest_snd_of_reject`. -/
theorem AllowRequest64_snd_of_reject (n : Node) (cost : Int)
    (h : (n.AllowRequest64 cost).1 = false) : (n.AllowRequest64 cost).2 = n := by
  by_cases h1 : wrap64 (n.currentRPM + 1) > n.MaxRPM
  · simp [Node.AllowRequest64, h1]
  · by_cases h2 : wrap64 (n.currentBPM + cost) > n.MaxBPM
    · simp [Node.AllowRequest64, h1, h2]
    · simp [Node.AllowRequest64, h1, h2] at h

/-- The method on 64-bit integers evaluated: it admits exactly when neither wrapped
sum is above its limit, and then stores the four wrapped sums. -/
theorem AllowRequest64_accept (n : Node) (cost : Int)
    (h1 : ¬ wrap64 (n.currentRPM + 1) > n.MaxRPM)
    (h2 : ¬ wrap64 (n.currentBPM + cost) > n.MaxBPM) :
    n.AllowRequest64 cost =
      (true, { n with
        currentRPM := wrap64 (n.currentRPM + 1)
        currentBPM := wrap64 (n.currentBPM + cost)
        totalRequests := wrap64 (n.totalRequests + 1)
        totalBytes := wrap64 (n.totalBytes + cost) }) := by
  simp [Node.AllowRequest64, h1, h2]

/-- The fields of a node stay 64-bit values under `AllowRequest`. -/
theorem AllowRequest64_is64 (n : Node) (cost : Int) (hn : n.is64) :
    (n.AllowRequest64 cost).2.is64 := by
  obtain ⟨a1, a2, a3, a4, a5, a6⟩ := hn
  by_cases h1 : wrap64 (n.currentRPM + 1) > n.MaxRPM
  · simp only [Node.AllowRequest64, h1, if_true]
    exact ⟨a1, a2, a3, a4, a5, a6⟩
  · by_cases h2 : wrap64 (n.currentBPM + cost) > n.MaxBPM
    · simp only [Node.AllowRequest64, h1, h2, if_true, if_false]
      exact ⟨a1, a2, a3, a4, a5, a6⟩
    · rw [AllowRequest64_accept n cost h1 h2]
      exact ⟨a1, a2, wrap64_fits _, wrap64_fits _, wrap64_fits _, wrap64_fits _⟩

/-- The fields of a node stay 64-bit values under every call. -/
theorem step64_is64 (n : Node) (op : Op) (hn : n.is64) : (n.step64 op).is64 := by
  cases op with
  | allow cost => exact AllowRequest64_is64 n cost hn
  | reset =>
    obtain ⟨a1, a2, _, _, a5, a6⟩ := hn
    have z : fits64 0 := by unfold fits64 MinInt64 MaxInt64; omega
    exact ⟨a1, a2, z, z, a5, a6⟩

theorem run64_is64 (ops : List Op) : ∀ n : Node, n.is64 → (n.run64 ops).is64 := by
  induction ops with
  | nil => intro n hn; exact hn
  | cons op ops ih => intro n hn; exact ih (n.step64 op) (step64_is64 n op hn)

theorem run64_append (ops1 ops2 : List Op) :
    ∀ n : Node, n.run64 (ops1 ++ ops2) = (n.run64 ops1).run64 ops2 := by
  induction ops1 with
  | nil => intro n; rfl
  | cons op ops ih => intro n; simp [Node.run64, ih]

/-- The 64-bit counterpart of the bounds of `step_within`: whatever wraps, the value
that a call stores is the value that its guard compared with the limit, so both
current-window counters stay within limits that are not negative. -/
theorem step64_within (m : Node) (op : Op) (hR : 0 ≤ m.MaxRPM) (hB : 0 ≤ m.MaxBPM)
    (h1 : m.currentRPM ≤ m.MaxRPM) (h2 : m.currentBPM ≤ m.MaxBPM) :
    (m.step64 op).MaxRPM = m.MaxRPM ∧ (m.step64 op).MaxBPM = m.MaxBPM ∧
    (m.step64 op).currentRPM ≤ m.MaxRPM ∧ (m.step64 op).currentBPM ≤ m.MaxBPM := by
  cases op with
  | allow cost =>
    by_cases c1 : wrap64 (m.currentRPM + 1) > m.MaxRPM
    · simp only [Node.step64, Node.AllowRequest64, c1, if_true]
      exact ⟨trivial, trivial, h1, h2⟩
    · by_cases c2 : wrap64 (m.currentBPM + cost) > m.MaxBPM
      · simp only [Node.step64, Node.AllowRequest64, c1, c2, if_true, if_false]
        exact ⟨trivial, trivial, h1, h2⟩
      · simp only [Node.step64, AllowRequest64_accept m cost c1 c2]
        exact ⟨trivial, trivial, by omega, by omega⟩
  | reset => exact ⟨rfl, rfl, hR, hB⟩

/-- The 64-bit counterpart of `run_within`: from limits that are not negative and
counters within them, every finite sequence of calls on 64-bit integers keeps both
current-window counters within their limits. -/
theorem run64_within (ops : List Op) :
    ∀ m : Node, 0 ≤ m.MaxRPM → 0 ≤ m.MaxBPM →
      m.currentRPM ≤ m.MaxRPM → m.currentBPM ≤ m.MaxBPM →
      (m.run64 ops).MaxRPM = m.MaxRPM ∧ (m.run64 ops).MaxBPM = m.MaxBPM ∧
      (m.run64 ops).currentRPM ≤ m.MaxRPM ∧ (m.run64 ops).currentBPM ≤ m.MaxBPM := by
  induction ops with
  | nil => intro m _ _ h1 h2; exact ⟨rfl, rfl, h1, h2⟩
  | cons op ops ih =>
    intro m hR hB h1 h2
    obtain ⟨e1, e2, s1, s2⟩ := step64_within m op hR hB h1 h2
    have := ih (m.step64 op) (by omega) (by omega) (by omega) (by omega)
    simp only [Node.run64]
    rw [e1, e2] at this
    exact this

/-- On 64-bit integers too, a node (of 64-bit fields) with a positive request limit
admits, right after `ResetCounts`, every cost from 0 to its byte limit. -/
theorem retry_after_reset64 (n : Node) (cost : Int) (hR : 0 < n.MaxRPM)
    (h0 : 0 ≤ cost) (hc : cost ≤ n.MaxBPM) (hn : n.is64) :
    (n.ResetCounts.AllowRequest64 cost).1 = true := by
  obtain ⟨⟨_, b2⟩, _, _, _, _, _⟩ := hn
  have e1 : wrap64 1 = 1 := by unfold wrap64; omega
  have e2 : wrap64 cost = cost :=
    wrap64_eq _ ⟨by unfold MinInt64; omega, by omega⟩
  have g1 : ¬ n.MaxRPM < 1 := by omega
  have g2 : ¬ n.MaxBPM < cost := by omega
  simp [Node.AllowRequest64, Node.ResetCounts, e1, e2, g1, g2]

/-- C1, as the claim states it, fails on 64-bit integers: on `usedNode` (1 byte of 100
and 1 request of 10 used) the call `AllowRequest(MaxInt64)` computes `1 + MaxInt64`,
which wraps to `-2 ^ 63`; the guard of line 31 does not fire and the call returns
true, although `currentBPM + cost > MaxBPM`. -/
theorem admission_rule_counterexample :
    usedNode.is64 ∧ 0 ≤ MaxInt64 ∧ fits64 MaxInt64 ∧
    (usedNode.AllowRequest64 MaxInt64).1 = true ∧
    usedNode.currentBPM + MaxInt64 > usedNode.MaxBPM ∧
    ¬ ((usedNode.AllowRequest64 MaxInt64).1 = false ↔
        (usedNode.currentRPM + 1 > usedNode.MaxRPM ∨
          usedNode.currentBPM + MaxInt64 > usedNode.MaxBPM)) := by
  decide

/-- C1, amended: for every node state (of 64-bit fields) and every cost `≥ 0` such
that neither `currentRPM + 1` nor `currentBPM + cost` exceeds `MaxInt64`,
`AllowRequest(cost)` returns false exactly when `currentRPM + 1 > MaxRPM` or
`currentBPM + cost > MaxBPM`. In particular a request that lands exactly on a limit
while not crossing the other one is admitted, and a request that crosses only the
byte limit is rejected although request-count headroom remains. -/
theorem admission_rule64 (n : Node) (cost : Int) (hn : n.is64) (h0 : 0 ≤ cost)
    (hr : n.currentRPM + 1 ≤ MaxInt64) (hb : n.currentBPM + cost ≤ MaxInt64) :
    ((n.AllowRequest64 cost).1 = false ↔
        (n.currentRPM + 1 > n.MaxRPM ∨ n.currentBPM + cost > n.MaxBPM)) ∧
    (n.currentRPM + 1 = n.MaxRPM → n.currentBPM + cost ≤ n.MaxBPM →
        (n.AllowRequest64 cost).1 = true) ∧
    (n.currentRPM + 1 ≤ n.MaxRPM → n.currentBPM + cost = n.MaxBPM →
        (n.AllowRequest64 cost).1 = true) ∧
    (n.currentRPM + 1 ≤ n.MaxRPM → n.currentBPM + cost > n.MaxBPM →
        (n.AllowRequest64 cost).1 = false) := by
  obtain ⟨_, _, ⟨b1, _⟩, ⟨r1, _⟩, _, _⟩ := hn
  have e1 : wrap64 (n.currentRPM + 1) = n.currentRPM + 1 :=
    wrap64_eq _ ⟨by unfold MinInt64 at r1 ⊢; omega, hr⟩
  have e2 : wrap64 (n.currentBPM + cost) = n.currentBPM + cost :=
    wrap64_eq _ ⟨by unfold MinInt64 at b1 ⊢; omega, hb⟩
  have key : (n.AllowRequest64 cost).1 = false ↔
      (n.currentRPM + 1 > n.MaxRPM ∨ n.currentBPM + cost > n.MaxBPM) := by
    by_cases h1 : n.currentRPM + 1 > n.MaxRPM
    · simp [Node.AllowRequest64, e1, e2, h1]
    · by_cases h2 : n.currentBPM + cost > n.MaxBPM
      · simp [Node.AllowRequest64, e1, e2, h1, h2]
      · simp [Node.AllowRequest64, e1, e2, h1, h2]
  refine ⟨key, ?_, ?_, ?_⟩
  · intro h1 h2
    have hne : ¬ (n.AllowRequest64 cost).1 = false := by
      rw [key]; omega
    simpa using hne
  · intro h1 h2
    have hne : ¬ (n.AllowRequest64 cost).1 = false := by
      rw [key]; omega
    simpa using hne
  · intro h1 h2
    exact key.mpr (Or.inr h2)

/-- An instance of the amended C1 on the node of Scenario B after its first call (15
bytes of 20 used, 1 request of 10): a 10-byte request is rejected, a 5-byte request
lands exactly on the byte limit and is admitted. -/
theorem admission_rule64_witness :
    (({ URL := "b", APIKey := "", MaxBPM := 20, MaxRPM := 10, currentBPM := 15,
        currentRPM := 1, totalRequests := 1, totalBytes := 15 } : Node).AllowRequest64 10).1
      = false ∧
    (({ URL := "b", APIKey := "", MaxBPM := 20, MaxRPM := 10, currentBPM := 15,
        currentRPM := 1, totalRequests := 1, totalBytes := 15 } : Node).AllowRequest64 5).1
      = true :=
  ⟨(admission_rule64
      { URL := "b", APIKey := "", MaxBPM := 20, MaxRPM := 10, currentBPM := 15,
        currentRPM := 1, totalRequests := 1, totalBytes := 15 } 10
      (by decide) (by decide) (by decide) (by decide)).2.2.2 (by decide) (by decide),
   (admission_rule64
      { URL := "b", APIKey := "", MaxBPM := 20, MaxRPM := 10, currentBPM := 15,
        currentRPM := 1, totalRequests := 1, totalBytes := 15 } 5
      (by decide) (by decide) (by decide) (by decide)).2.2.1 (by decide) (by decide)⟩

/-- C3, as the claim states it, fails on 64-bit integers: on `usedNode` the call
`AllowRequest(MaxInt64)` returns true and stores the wrapped sums: `currentBPM` and
`totalBytes` become `-2 ^ 63`, not their old value plus the cost. -/
theorem admit_effect_counterexample :
    usedNode.is64 ∧ 0 ≤ MaxInt64 ∧ fits64 MaxInt64 ∧
    (usedNode.AllowRequest64 MaxInt64).1 = true ∧
    (usedNode.AllowRequest64 MaxInt64).2.currentBPM = MinInt64 ∧
    (usedNode.AllowRequest64 MaxInt64).2.currentBPM ≠ usedNode.currentBPM + MaxInt64 ∧
    (usedNode.AllowRequest64 MaxInt64).2.totalBytes = MinInt64 ∧
    (usedNode.AllowRequest64 MaxInt64).2.totalBytes ≠ usedNode.totalBytes + MaxInt64 := by
  decide

/-- C3, amended: for every node state (of 64-bit fields) and every cost `≥ 0` such
that none of the four sums `currentRPM + 1`, `currentBPM + cost`, `totalRequests + 1`
and `totalBytes + cost` exceeds `MaxInt64`, an admitted `AllowRequest(cost)` adds
exactly 1 to `currentRPM` and to `totalRequests`, exactly `cost` to `currentBPM` and
to `totalBytes`, and leaves `MaxRPM`, `MaxBPM`, `URL` and `APIKey` as they were. -/
theorem admit_effect64 (n : Node) (cost : Int) (hn : n.is64) (h0 : 0 ≤ cost)
    (hr : n.currentRPM + 1 ≤ MaxInt64) (hb : n.currentBPM + cost ≤ MaxInt64)
    (htr : n.totalRequests + 1 ≤ MaxInt64) (htb : n.totalBytes + cost ≤ MaxInt64)
    (h : (n.AllowRequest64 cost).1 = true) :
    (n.AllowRequest64 cost).2.currentRPM = n.currentRPM + 1 ∧
    (n.AllowRequest64 cost).2.currentBPM = n.currentBPM + cost ∧
    (n.AllowRequest64 cost).2.totalRequests = n.totalRequests + 1 ∧
    (n.AllowRequest64 cost).2.totalBytes = n.totalBytes + cost ∧
    (n.AllowRequest64 cost).2.MaxRPM = n.MaxRPM ∧
    (n.AllowRequest64 cost).2.MaxBPM = n.MaxBPM ∧
    (n.AllowRequest64 cost).2.URL = n.URL ∧
    (n.AllowRequest64 cost).2.APIKey = n.APIKey := by
  obtain ⟨_, _, ⟨b1, _⟩, ⟨r1, _⟩, ⟨t1, _⟩, ⟨u1, _⟩⟩ := hn
  unfold MinInt64 at b1 r1 t1 u1
  have e1 : wrap64 (n.currentRPM + 1) = n.currentRPM + 1 :=
    wrap64_eq _ ⟨by unfold MinInt64; omega, hr⟩
  have e2 : wrap64 (n.currentBPM + cost) = n.currentBPM + cost :=
    wrap64_eq _ ⟨by unfold MinInt64; omega, hb⟩
  have e3 : wrap64 (n.totalRequests + 1) = n.totalRequests + 1 :=
    wrap64_eq _ ⟨by unfold MinInt64; omega, htr⟩
  have e4 : wrap64 (n.totalBytes + cost) = n.totalBytes + cost :=
    wrap64_eq _ ⟨by unfold MinInt64; omega, htb⟩
  by_cases h1 : wrap64 (n.currentRPM + 1) > n.MaxRPM
  · simp [Node.AllowRequest64, h1] at h
  · by_cases h2 : wrap64 (n.currentBPM + cost) > n.MaxBPM
    · simp [Node.AllowRequest64, h1, h2] at h
    · rw [AllowRequest64_accept n cost h1 h2]
      exact ⟨e1, e2, e3, e4, rfl, rfl, rfl, rfl⟩

/-- An instance of the amended C3: the first call of Scenario B. -/
theorem admit_effect64_witness :
    (({ URL := "b", APIKey := "", MaxBPM := 20, MaxRPM := 10, currentBPM := 0,
        currentRPM := 0, totalRequests := 0, totalBytes := 0 } : Node).AllowRequest64 15).2
      = { URL := "b", APIKey := "", MaxBPM := 20, MaxRPM := 10, currentBPM := 15,
          currentRPM := 1, totalRequests := 1, totalBytes := 15 } ∧
    (({ URL := "b", APIKey := "", MaxBPM := 20, MaxRPM := 10, currentBPM := 0,
        currentRPM := 0, totalRequests := 0, totalBytes := 0 } : Node).AllowRequest64
      15).2.currentBPM = 0 + 15 :=
  ⟨by decide,
   (admit_effect64
    { URL := "b", APIKey := "", MaxBPM := 20, MaxRPM := 10, currentBPM := 0,
      currentRPM := 0, totalRequests := 0, totalBytes := 0 } 15
    (by decide) (by decide) (by decide) (by decide) (by decide) (by decide)
    (by decide)).2.1⟩

/-! ### Lifetime totals on 64-bit integers -/

/-- C11, as the claim states it, fails on 64-bit integers: on `wideNode` (zero
counters, `MaxBPM = MaxInt64`) the calls `AllowRequest(MaxInt64)`, `ResetCounts`,
`AllowRequest(1)` are both admitted, and the last one wraps `totalBytes` from
`MaxInt64` to `-2 ^ 63`: a lifetime total decreases on a call with cost `≥ 0`. -/
theorem totals_counterexample :
    wideNode.is64 ∧
    (wideNode.run64 [Op.allow MaxInt64, Op.reset]).totalBytes = MaxInt64 ∧
    ((wideNode.run64 [Op.allow MaxInt64, Op.reset]).AllowRequest64 1).1 = true ∧
    (wideNode.run64 [Op.allow MaxInt64, Op.reset, Op.allow 1]).totalBytes = MinInt64 ∧
    ¬ ((wideNode.run64 [Op.allow MaxInt64, Op.reset]).totalBytes
        ≤ (wideNode.run64 ([Op.allow MaxInt64, Op.reset] ++ [Op.allow 1])).totalBytes) := by
  decide

/-- One call on 64-bit integers does not lower a lifetime total that it does not
overflow. -/
theorem AllowRequest64_totals (m : Node) (cost : Int) (hm : m.is64) (h0 : 0 ≤ cost)
    (htr : m.totalRequests + 1 ≤ MaxInt64) (htb : m.totalBytes + cost ≤ MaxInt64) :
    m.totalRequests ≤ (m.AllowRequest64 cost).2.totalRequests ∧
    m.totalBytes ≤ (m.AllowRequest64 cost).2.totalBytes := by
  obtain ⟨_, _, _, _, ⟨t1, _⟩, ⟨u1, _⟩⟩ := hm
  unfold MinInt64 at t1 u1
  have e3 : wrap64 (m.totalRequests + 1) = m.totalRequests + 1 :=
    wrap64_eq _ ⟨by unfold MinInt64; omega, htr⟩
  have e4 : wrap64 (m.totalBytes + cost) = m.totalBytes + cost :=
    wrap64_eq _ ⟨by unfold MinInt64; omega, htb⟩
  by_cases h1 : wrap64 (m.currentRPM + 1) > m.MaxRPM
  · simp [Node.AllowRequest64, h1]
  · by_cases h2 : wrap64 (m.currentBPM + cost) > m.MaxBPM
    · simp [Node.AllowRequest64, h1, h2]
    · rw [AllowRequest64_accept m cost h1 h2]
      show m.totalRequests ≤ wrap64 (m.totalRequests + 1) ∧
        m.totalBytes ≤ wrap64 (m.totalBytes + cost)
      rw [e3, e4]
      exact ⟨by omega, by omega⟩

/-- C11, amended: from every node state (of 64-bit fields), in every finite sequence
of `AllowRequest(cost)` calls with `cost ≥ 0` and `ResetCounts` calls, `totalRequests`
and `totalBytes` after a call are at least what they were before that call whenever
the call does not overflow them (`totalRequests + 1 ≤ MaxInt64` and
`totalBytes + cost ≤ MaxInt64` before the call), and after each `ResetCounts` call
both are exactly what they were before it. -/
theorem totals_monotone64 (n : Node) (hn : n.is64) :
    (∀ (pre : List Op) (cost : Int), 0 ≤ cost →
      (n.run64 pre).totalRequests + 1 ≤ MaxInt64 →
      (n.run64 pre).totalBytes + cost ≤ MaxInt64 →
      (n.run64 pre).totalRequests ≤ (n.run64 (pre ++ [Op.allow cost])).totalRequests ∧
      (n.run64 pre).totalBytes ≤ (n.run64 (pre ++ [Op.allow cost])).totalBytes) ∧
    (∀ pre : List Op,
      (n.run64 (pre ++ [Op.reset])).totalRequests = (n.run64 pre).totalRequests ∧
      (n.run64 (pre ++ [Op.reset])).totalBytes = (n.run64 pre).totalBytes) := by
  refine ⟨?_, ?_⟩
  · intro pre cost h0 htr htb
    rw [run64_append]
    exact AllowRequest64_totals (n.run64 pre) cost (run64_is64 pre n hn) h0 htr htb
  · intro pre
    rw [run64_append]
    exact ⟨rfl, rfl⟩

/-- An instance of the amended C11 on the node of Scenario A: a 10-byte request after
six 10-byte requests and a reset does not lower the totals. -/
theorem totals_monotone64_witness :
    (scenarioANode.run64 (List.replicate 6 (Op.allow 10) ++ [Op.reset])).totalRequests
      ≤ (scenarioANode.run64
          ((List.replicate 6 (Op.allow 10) ++ [Op.reset]) ++ [Op.allow 10])).totalRequests ∧
    (scenarioANode.run64 (List.replicate 6 (Op.allow 10) ++ [Op.reset])).totalBytes
      ≤ (scenarioANode.run64
          ((List.replicate 6 (Op.allow 10) ++ [Op.reset]) ++ [Op.allow 10])).totalBytes :=
  (totals_monotone64 scenarioANode (by decide)).1
    (List.replicate 6 (Op.allow 10) ++ [Op.reset]) 10 (by decide) (by decide) (by decide)

/-! ### Repeated requests of one cost on 64-bit integers -/

theorem allowMany64_append (xs ys : List Int) :
    ∀ n : Node, (n.allowMany64 (xs ++ ys)).1
      = (n.allowMany64 xs).1 ++ ((n.allowMany64 xs).2.allowMany64 ys).1 := by
  induction xs with
  | nil => intro n; simp [Node.allowMany64]
  | cons x xs ih => intro n; simp [Node.allowMany64, ih]

/-- On a node that has admitted `j` requests of cost `c` in the current window and
has room for `k` more on both dimensions, `k` further calls are all admitted, as long
as the counters they reach are 64-bit values. -/
theorem allowMany64_admitted (c : Int) (h0 : 0 ≤ c) (k : Nat) :
    ∀ (n : Node) (j : Int), 0 ≤ j → n.currentRPM = j → n.currentBPM = j * c →
      j + k ≤ n.MaxRPM → (j + k) * c ≤ n.MaxBPM →
      j + k ≤ MaxInt64 → (j + k) * c ≤ MaxInt64 →
      (n.allowMany64 (List.replicate k c)).1 = List.replicate k true ∧
      (n.allowMany64 (List.replicate k c)).2.currentRPM = j + k ∧
      (n.allowMany64 (List.replicate k c)).2.currentBPM = (j + k) * c ∧
      (n.allowMany64 (List.replicate k c)).2.MaxRPM = n.MaxRPM ∧
      (n.allowMany64 (List.replicate k c)).2.MaxBPM = n.MaxBPM := by
  induction k with
  | zero => intro n j _ hr hb _ _ _ _; simp [Node.allowMany64, hr, hb]
  | succ k ih =>
    intro n j hj hr hb hR hB hM hMB
    push_cast at hR hB hM hMB
    have hk : (0 : Int) ≤ (k : Int) * c := mul_nonneg (Int.natCast_nonneg k) h0
    have hjc : (0 : Int) ≤ j * c := mul_nonneg hj h0
    have hstep : j * c + c ≤ (j + ((k : Int) + 1)) * c := by nlinarith
    have e1 : wrap64 (n.currentRPM + 1) = n.currentRPM + 1 :=
      wrap64_eq _ ⟨by unfold MinInt64; omega, by omega⟩
    have e2 : wrap64 (n.currentBPM + c) = n.currentBPM + c :=
      wrap64_eq _ ⟨by unfold MinInt64; omega, by omega⟩
    have h1 : ¬ wrap64 (n.currentRPM + 1) > n.MaxRPM := by rw [e1]; omega
    have h2 : ¬ wrap64 (n.currentBPM + c) > n.MaxBPM := by rw [e2]; omega
    have hrec := ih { n with currentRPM := wrap64 (n.currentRPM + 1)
                             currentBPM := wrap64 (n.currentBPM + c)
                             totalRequests := wrap64 (n.totalRequests + 1)
                             totalBytes := wrap64 (n.totalBytes + c) } (j + 1)
      (by omega)
      (by show wrap64 (n.currentRPM + 1) = j + 1; rw [e1, hr])
      (by show wrap64 (n.currentBPM + c) = (j + 1) * c; rw [e2, hb]; ring)
      (by show j + 1 + (k : Int) ≤ n.MaxRPM; omega)
      (by show (j + 1 + (k : Int)) * c ≤ n.MaxBPM
          have e : (j + 1 + (k : Int)) * c = (j + ((k : Int) + 1)) * c := by ring
          rw [e]; exact hB)
      (by omega)
      (by have e : (j + 1 + (k : Int)) * c = (j + ((k : Int) + 1)) * c := by ring
          rw [e]; exact hMB)
    obtain ⟨r1, r2, r3, r4, r5⟩ := hrec
    simp only [List.replicate_succ, Node.allowMany64, AllowRequest64_accept n c h1 h2]
    refine ⟨by rw [r1], ?_, ?_, r4, r5⟩
    · rw [r2]; push_cast; ring
    · rw [r3]; push_cast; ring

/-- C15, as the claim states it, fails on 64-bit integers: on `spinNode` (zero
counters, `MaxRPM = N = MaxInt64`, `MaxBPM = 0`) with `c = 0`, so that
`N * c ≤ MaxBPM`, the first `N` calls are admitted and leave `currentRPM = MaxInt64`;
in the next call `currentRPM + 1` wraps to `-2 ^ 63`, the guard of line 27 does not
fire, and the call returns true where the claim has false. -/
theorem fill_request_limit_counterexample :
    (spinNode.currentRPM = 0 ∧ spinNode.currentBPM = 0 ∧
      spinNode.MaxRPM = ((MaxInt64.toNat : Nat) : Int) ∧
      ((MaxInt64.toNat : Nat) : Int) * 0 ≤ spinNode.MaxBPM) ∧
    (spinNode.allowMany64 (List.replicate MaxInt64.toNat 0)).1
      = List.replicate MaxInt64.toNat true ∧
    ((spinNode.allowMany64 (List.replicate MaxInt64.toNat 0)).2.AllowRequest64 0).1
      = true := by
  have hN : ((MaxInt64.toNat : Nat) : Int) = MaxInt64 := by unfold MaxInt64; omega
  have hR : spinNode.MaxRPM = MaxInt64 := rfl
  have hB : spinNode.MaxBPM = 0 := rfl
  obtain ⟨r1, r2, r3, r4, r5⟩ := allowMany64_admitted 0 (le_refl 0) MaxInt64.toNat spinNode 0
    (le_refl 0) rfl (by show (0 : Int) = 0 * 0; ring) (by rw [hN, hR]; omega)
    (by rw [hB]; ring_nf; exact le_refl 0) (by rw [hN]; omega)
    (by rw [mul_zero]; unfold MaxInt64; omega)
  refine ⟨⟨rfl, rfl, by rw [hN, hR], by rw [hB]; ring_nf; exact le_refl 0⟩, r1, ?_⟩
  rw [hN, zero_add] at r2
  rw [mul_zero] at r3
  rw [hR] at r4
  rw [hB] at r5
  have h1 : ¬ wrap64 ((spinNode.allowMany64 (List.replicate MaxInt64.toNat 0)).2.currentRPM + 1)
      > (spinNode.allowMany64 (List.replicate MaxInt64.toNat 0)).2.MaxRPM := by
    rw [r2, r4]; unfold wrap64 MaxInt64; omega
  have h2 : ¬ wrap64 ((spinNode.allowMany64 (List.replicate MaxInt64.toNat 0)).2.currentBPM + 0)
      > (spinNode.allowMany64 (List.replicate MaxInt64.toNat 0)).2.MaxBPM := by
    rw [r3, r5]; unfold wrap64; omega
  rw [AllowRequest64_accept _ 0 h1 h2]

/-- C15, amended: on a node (of 64-bit fields) with zero current-window counters and
`MaxRPM = N < MaxInt64`, for a cost `c ≥ 0` with `N * c ≤ MaxBPM`, each of `N`
sequential `AllowRequest(c)` calls returns true, they leave `currentRPM = N` and
`currentBPM = N * c`, and the next `AllowRequest(c)` returns false, whatever byte
headroom remains. -/
theorem fill_request_limit64 (n : Node) (N : Nat) (c : Int) (hn : n.is64)
    (hr : n.currentRPM = 0) (hb : n.currentBPM = 0) (hN : n.MaxRPM = N)
    (hlt : (N : Int) < MaxInt64) (h0 : 0 ≤ c) (hB : N * c ≤ n.MaxBPM) :
    (n.allowMany64 (List.replicate N c)).1 = List.replicate N true ∧
    (n.allowMany64 (List.replicate N c)).2.currentRPM = N ∧
    (n.allowMany64 (List.replicate N c)).2.currentBPM = N * c ∧
    ((n.allowMany64 (List.replicate N c)).2.AllowRequest64 c).1 = false ∧
    (n.allowMany64 (List.replicate (N + 1) c)).1 = List.replicate N true ++ [false] := by
  obtain ⟨⟨_, b2⟩, _, _, _, _, _⟩ := hn
  obtain ⟨r1, r2, r3, r4, _⟩ := allowMany64_admitted c h0 N n 0 (le_refl 0) hr
    (by rw [hb]; ring) (by rw [hN]; omega) (by rw [zero_add]; exact hB) (by omega)
    (by rw [zero_add]; omega)
  rw [zero_add] at r2 r3
  have hrej : ((n.allowMany64 (List.replicate N c)).2.AllowRequest64 c).1 = false := by
    have e1 : wrap64 ((n.allowMany64 (List.replicate N c)).2.currentRPM + 1)
        = (N : Int) + 1 := by
      rw [r2]
      exact wrap64_eq _ ⟨by unfold MinInt64; omega, by omega⟩
    have h1 : wrap64 ((n.allowMany64 (List.replicate N c)).2.currentRPM + 1)
        > (n.allowMany64 (List.replicate N c)).2.MaxRPM := by
      rw [e1, r4, hN]; omega
    simp [Node.AllowRequest64, h1]
  refine ⟨r1, r2, r3, hrej, ?_⟩
  have e : List.replicate (N + 1) c = List.replicate N c ++ [c] := by
    rw [List.replicate_succ']
  rw [e, allowMany64_append, r1]
  simp [Node.allowMany64, hrej]

/-- An instance of the amended C15 (Scenario A): five 10-byte requests are admitted
and leave 5 requests and 50 bytes in the window; the sixth is rejected. -/
theorem fill_request_limit64_witness :
    (scenarioANode.allowMany64 (List.replicate 5 10)).1 = List.replicate 5 true ∧
    (scenarioANode.allowMany64 (List.replicate 5 10)).2.currentRPM = 5 ∧
    (scenarioANode.allowMany64 (List.replicate 5 10)).2.currentBPM = 5 * 10 ∧
    ((scenarioANode.allowMany64 (List.replicate 5 10)).2.AllowRequest64 10).1 = false ∧
    (scenarioANode.allowMany64 (List.replicate (5 + 1) 10)).1
      = List.replicate 5 true ++ [false] :=
  fill_request_limit64 scenarioANode 5 10 (by decide) rfl rfl rfl (by decide) (by decide)
    (by decide)

/-- Sequential `AllowRequest(1)` calls on 64-bit integers, on a node that has admitted
`j` one-byte requests in the current window, where `m < MaxInt64` is the smaller of
its two limits: the first `m - j` calls are admitted and all later ones rejected. -/
theorem allowMany64_ones (K : Nat) :
    ∀ (n : Node) (j m : Nat), n.currentRPM = j → n.currentBPM = j → j ≤ m →
      (m : Int) ≤ n.MaxRPM → (m : Int) ≤ n.MaxBPM → (n.MaxRPM = m ∨ n.MaxBPM = m) →
      (m : Int) < MaxInt64 →
      (n.allowMany64 (List.replicate K 1)).1
        = List.replicate (min K (m - j)) true
          ++ List.replicate (K - min K (m - j)) false := by
  induction K with
  | zero => intro n j m _ _ _ _ _ _ _; simp [Node.allowMany64]
  | succ K ih =>
    intro n j m hr hb hjm hR hB hm hM
    have e1 : wrap64 (n.currentRPM + 1) = n.currentRPM + 1 :=
      wrap64_eq _ ⟨by unfold MinInt64; omega, by omega⟩
    have e2 : wrap64 (n.currentBPM + 1) = n.currentBPM + 1 :=
      wrap64_eq _ ⟨by unfold MinInt64; omega, by omega⟩
    by_cases hlt : j < m
    · have h1 : ¬ wrap64 (n.currentRPM + 1) > n.MaxRPM := by rw [e1]; omega
      have h2 : ¬ wrap64 (n.currentBPM + 1) > n.MaxBPM := by rw [e2]; omega
      have hrec := ih { n with currentRPM := wrap64 (n.currentRPM + 1)
                               currentBPM := wrap64 (n.currentBPM + 1)
                               totalRequests := wrap64 (n.totalRequests + 1)
                               totalBytes := wrap64 (n.totalBytes + 1) } (j + 1) m
        (by show wrap64 (n.currentRPM + 1) = ((j + 1 : Nat) : Int); rw [e1]; omega)
        (by show wrap64 (n.currentBPM + 1) = ((j + 1 : Nat) : Int); rw [e2]; omega)
        (by omega) hR hB hm hM
      simp only [List.replicate_succ, Node.allowMany64, AllowRequest64_accept n 1 h1 h2,
        hrec]
      have e3 : min (K + 1) (m - j) = min K (m - (j + 1)) + 1 := by omega
      have e4 : K + 1 - min (K + 1) (m - j) = K - min K (m - (j + 1)) := by omega
      rw [e4, e3, List.replicate_succ, List.cons_append]
    · have hrej : (n.AllowRequest64 1).1 = false := by
        rcases hm with hm | hm
        · have h1 : wrap64 (n.currentRPM + 1) > n.MaxRPM := by rw [e1]; omega
          simp [Node.AllowRequest64, h1]
        · by_cases h1 : wrap64 (n.currentRPM + 1) > n.MaxRPM
          · simp [Node.AllowRequest64, h1]
          · have h2 : wrap64 (n.currentBPM + 1) > n.MaxBPM := by rw [e2]; omega
            simp [Node.AllowRequest64, h1, h2]
      have hrec := ih n j m hr hb hjm hR hB hm hM
      simp only [List.replicate_succ, Node.allowMany64, hrej,
        AllowRequest64_snd_of_reject n 1 hrej, hrec]
      have e3 : min (K + 1) (m - j) = 0 := by omega
      have e4 : min K (m - j) = 0 := by omega
      rw [e3, e4]
      simp [List.replicate_succ]

/-- C10, as the claim states it, fails. First, on a node with zero counters,
`maxRequests = 2` and `maxBytes = 1`, only one of three `AllowRequest(1)` calls is
admitted, not two: the second call is rejected on the byte limit. Second, on
`fullNode` (zero counters, `maxRequests = N = MaxInt64`, `maxBytes = MaxInt64`) the
first `N` calls are admitted and so is call `N + 1`, in which both sums wrap to
`-2 ^ 63`: more than `N` calls return true. -/
theorem one_byte_requests_counterexample :
    ((({ URL := "n", APIKey := "", MaxBPM := 1, MaxRPM := 2, currentBPM := 0,
         currentRPM := 0, totalRequests := 0, totalBytes := 0 } : Node).allowMany64
       (List.replicate 3 1)).1 = [true, false, false] ∧
     (({ URL := "n", APIKey := "", MaxBPM := 1, MaxRPM := 2, currentBPM := 0,
         currentRPM := 0, totalRequests := 0, totalBytes := 0 } : Node).allowMany64
       (List.replicate 3 1)).1.count true ≠ 2) ∧
    ((fullNode.currentRPM = 0 ∧ fullNode.currentBPM = 0 ∧
       fullNode.MaxRPM = ((MaxInt64.toNat : Nat) : Int)) ∧
     (fullNode.allowMany64 (List.replicate MaxInt64.toNat 1)).1
       = List.replicate MaxInt64.toNat true ∧
     ((fullNode.allowMany64 (List.replicate MaxInt64.toNat 1)).2.AllowRequest64 1).1
       = true) := by
  refine ⟨by decide, ?_⟩
  have hN : ((MaxInt64.toNat : Nat) : Int) = MaxInt64 := by unfold MaxInt64; omega
  have hR : fullNode.MaxRPM = MaxInt64 := rfl
  have hB : fullNode.MaxBPM = MaxInt64 := rfl
  obtain ⟨r1, r2, r3, r4, r5⟩ := allowMany64_admitted 1 (by omega) MaxInt64.toNat fullNode 0
    (le_refl 0) rfl (by show (0 : Int) = 0 * 1; ring) (by rw [hN, hR]; omega)
    (by rw [hN, hB]; omega) (by rw [hN]; omega) (by rw [hN]; omega)
  refine ⟨⟨rfl, rfl, by rw [hN, hR]⟩, r1, ?_⟩
  rw [hN, zero_add] at r2
  rw [hN, zero_add, mul_one] at r3
  rw [hR] at r4
  rw [hB] at r5
  have h1 : ¬ wrap64 ((fullNode.allowMany64 (List.replicate MaxInt64.toNat 1)).2.currentRPM + 1)
      > (fullNode.allowMany64 (List.replicate MaxInt64.toNat 1)).2.MaxRPM := by
    rw [r2, r4]; unfold wrap64 MaxInt64; omega
  have h2 : ¬ wrap64 ((fullNode.allowMany64 (List.replicate MaxInt64.toNat 1)).2.currentBPM + 1)
      > (fullNode.allowMany64 (List.replicate MaxInt64.toNat 1)).2.MaxBPM := by
    rw [r3, r5]; unfold wrap64 MaxInt64; omega
  rw [AllowRequest64_accept _ 1 h1 h2]

/-- C10, amended: for a node with zero current-window counters, `maxRequests = N`,
`maxBytes ≥ 0` and `min(N, maxBytes) < MaxInt64`, among `K ≥ N` sequential
`AllowRequest(1)` calls with no reset in between exactly `min(N, maxBytes)` return
true (the first ones) and the remaining return false; in particular exactly `N`
return true and `K - N` return false when `maxBytes ≥ N`. -/
theorem one_byte_requests_admitted64 (n : Node) (N K : Nat) (hr : n.currentRPM = 0)
    (hb : n.currentBPM = 0) (hN : n.MaxRPM = N) (hB : 0 ≤ n.MaxBPM) (hK : N ≤ K)
    (hM : min (N : Int) n.MaxBPM < MaxInt64) :
    (n.allowMany64 (List.replicate K 1)).1
      = List.replicate (min N n.MaxBPM.toNat) true
        ++ List.replicate (K - min N n.MaxBPM.toNat) false ∧
    (n.allowMany64 (List.replicate K 1)).1.count true = min N n.MaxBPM.toNat ∧
    (n.allowMany64 (List.replicate K 1)).1.count false = K - min N n.MaxBPM.toNat ∧
    ((N : Int) ≤ n.MaxBPM →
      (n.allowMany64 (List.replicate K 1)).1.count true = N ∧
      (n.allowMany64 (List.replicate K 1)).1.count false = K - N) := by
  have hlist := allowMany64_ones K n 0 (min N n.MaxBPM.toNat)
    (by simpa using hr) (by simpa using hb) (Nat.zero_le _) (by omega) (by omega) (by omega)
    (by omega)
  have em : min K (min N n.MaxBPM.toNat - 0) = min N n.MaxBPM.toNat := by omega
  rw [em] at hlist
  have ct : (n.allowMany64 (List.replicate K 1)).1.count true = min N n.MaxBPM.toNat := by
    rw [hlist]; simp [List.count_replicate]
  have cf : (n.allowMany64 (List.replicate K 1)).1.count false
      = K - min N n.MaxBPM.toNat := by
    rw [hlist]; simp [List.count_replicate]
  refine ⟨hlist, ct, cf, ?_⟩
  intro hle
  have e : min N n.MaxBPM.toNat = N := by omega
  rw [ct, cf, e]
  exact ⟨rfl, rfl⟩

/-- An instance of the amended C10 on the node of Scenario A (`maxRequests = 5`,
`maxBytes = 100`): of seven one-byte requests exactly five are admitted. -/
theorem one_byte_requests_admitted64_witness :
    (scenarioANode.allowMany64 (List.replicate 7 1)).1.count true = 5 ∧
    (scenarioANode.allowMany64 (List.replicate 7 1)).1.count false = 7 - 5 :=
  (one_byte_requests_admitted64 scenarioANode 5 7 rfl rfl rfl
    (by decide) (by decide) (by decide)).2.2.2 (by decide)

/-! ### The dispatcher on a pool of pointers -/

theorem Store.set_self (st : Store) (p : Nat) : st.set p (st p) = st := by
  funext q
  by_cases h : q = p
  · simp [Store.set, h]
  · simp [Store.set, h]

theorem Store.set_same (st : Store) (p : Nat) (n : Node) : (st.set p n) p = n := by
  simp [Store.set]

theorem Store.set_other (st : Store) (p q : Nat) (n : Node) (h : q ≠ p) :
    (st.set p n) q = st q := by
  simp [Store.set, h]

/-- A pass in which every node rejects leaves the store as it was, chooses no entry,
and calls `AllowRequest` once for each entry of the pool, in list order. -/
theorem scan64_all_reject (size : Int) (st : Store) (ptrs : List Nat) :
    ∀ k : Nat, (∀ p ∈ ptrs, ((st p).AllowRequest64 size).1 = false) →
      scan64 size k ptrs st =
        { store := st, chosen := none,
          events := ptrs.map (fun p => Event.allowRequest p size false) } := by
  induction ptrs with
  | nil => intro k _; rfl
  | cons p rest ih =>
    intro k h
    have hp : ((st p).AllowRequest64 size).1 = false := h p (List.mem_cons_self _ _)
    have hrest : ∀ q ∈ rest, ((st q).AllowRequest64 size).1 = false :=
      fun q hq => h q (List.mem_cons_of_mem _ hq)
    simp only [scan64, hp, AllowRequest64_snd_of_reject (st p) size hp, Store.set_self,
      ih (k + 1) hrest, List.map_cons]
    simp

/-- A pass over a pool whose first admitting entry is at list index `i` and points to
`p` applies the admission to the node at `p` only, chooses that entry, and calls
`AllowRequest` once for each entry up to and including it. -/
theorem scan64_first_accept (size : Int) (st : Store) (ptrs : List Nat) :
    ∀ (k i p : Nat), ptrs[i]? = some p → ((st p).AllowRequest64 size).1 = true →
      (∀ (j q : Nat), j < i → ptrs[j]? = some q →
        ((st q).AllowRequest64 size).1 = false) →
      scan64 size k ptrs st =
        { store := st.set p ((st p).AllowRequest64 size).2,
          chosen := some (k + i, p),
          events := (ptrs.take i).map (fun q => Event.allowRequest q size false)
            ++ [Event.allowRequest p size true] } := by
  induction ptrs with
  | nil => intro k i p h; simp at h
  | cons a rest ih =>
    intro k i p hi hadm hbefore
    cases i with
    | zero =>
      simp only [List.getElem?_cons_zero, Option.some.injEq] at hi
      subst hi
      simp [scan64, hadm]
    | succ i =>
      have ha : ((st a).AllowRequest64 size).1 = false :=
        hbefore 0 a (Nat.succ_pos i) List.getElem?_cons_zero
      have hi2 : rest[i]? = some p := by
        rw [List.getElem?_cons_succ] at hi; exact hi
      have hb2 : ∀ (j q : Nat), j < i → rest[j]? = some q →
          ((st q).AllowRequest64 size).1 = false := by
        intro j q hj hq
        exact hbefore (j + 1) q (by omega) (by rw [List.getElem?_cons_succ]; exact hq)
      simp only [scan64, ha, AllowRequest64_snd_of_reject (st a) size ha, Store.set_self,
        ih (k + 1) i p hi2 hadm hb2, List.take_succ_cons, List.map_cons]
      simp
      omega

/-- A pool in which some node admits has a first admitting entry. -/
theorem exists_first_admit64 (size : Int) (st : Store) (ptrs : List Nat)
    (h : ∃ p ∈ ptrs, ((st p).AllowRequest64 size).1 = true) :
    ∃ (i p : Nat), ptrs[i]? = some p ∧ ((st p).AllowRequest64 size).1 = true ∧
      ∀ (j q : Nat), j < i → ptrs[j]? = some q →
        ((st q).AllowRequest64 size).1 = false := by
  induction ptrs with
  | nil => simp at h
  | cons a rest ih =>
    by_cases ha : ((st a).AllowRequest64 size).1 = true
    · exact ⟨0, a, List.getElem?_cons_zero, ha,
        fun j q hj _ => absurd hj (Nat.not_lt_zero j)⟩
    · have hrest : ∃ p ∈ rest, ((st p).AllowRequest64 size).1 = true := by
        obtain ⟨p, hp, hadm⟩ := h
        rcases List.mem_cons.mp hp with e | hmem
        · exact absurd (e ▸ hadm) ha
        · exact ⟨p, hmem, hadm⟩
      obtain ⟨i, p, hi, hadm, hb⟩ := ih hrest
      refine ⟨i + 1, p, by rw [List.getElem?_cons_succ]; exact hi, hadm, ?_⟩
      intro j q hj hq
      cases j with
      | zero =>
        simp only [List.getElem?_cons_zero, Option.some.injEq] at hq
        subst hq
        simpa using ha
      | succ j => exact hb j q (by omega) (by rw [List.getElem?_cons_succ] at hq; exact hq)

/-- Either every node of the pool rejects or some node admits. -/
theorem all_reject_or_admit64 (size : Int) (st : Store) (ptrs : List Nat) :
    (∀ p ∈ ptrs, ((st p).AllowRequest64 size).1 = false) ∨
    (∃ p ∈ ptrs, ((st p).AllowRequest64 size).1 = true) := by
  by_cases hall : ∀ p ∈ ptrs, ((st p).AllowRequest64 size).1 = false
  · exact Or.inl hall
  · right
    by_contra hno
    apply hall
    intro p hp
    by_contra hne
    exact hno ⟨p, hp, by simpa using hne⟩

/-- An attempt on a pool whose first admitting entry is at list index `i` returns
from inside the loop. -/
theorem attempts64_accept (size retryLimit : Int) (ptrs : List Nat) (fuel : Nat) (c : Int)
    (st : Store) (w : ResponseWriter) (lastError : String) (tr : List Event)
    (hc : c ≤ retryLimit) (i p : Nat)
    (hi : ptrs[i]? = some p) (hadm : ((st p).AllowRequest64 size).1 = true)
    (hbefore : ∀ (j q : Nat), j < i → ptrs[j]? = some q →
      ((st q).AllowRequest64 size).1 = false) :
    attempts64 size retryLimit ptrs (fuel + 1) c st w lastError tr =
      some { store := st.set p ((st p).AllowRequest64 size).2
             w := w.Write ("Request directed to " ++ (st p).URL ++ "\n")
             trace := tr ++ ((ptrs.take i).map (fun q => Event.allowRequest q size false)
               ++ [Event.allowRequest p size true])
             directed := some (i, p) } := by
  have hurl : ((st p).AllowRequest64 size).2.URL = (st p).URL := by
    by_cases h1 : wrap64 ((st p).currentRPM + 1) > (st p).MaxRPM
    · simp [Node.AllowRequest64, h1]
    · by_cases h2 : wrap64 ((st p).currentBPM + size) > (st p).MaxBPM
      · simp [Node.AllowRequest64, h1, h2]
      · simp [Node.AllowRequest64, h1, h2]
  simp only [attempts64, hc, if_true, scan64_first_accept size st ptrs 0 i p hi hadm hbefore,
    Nat.zero_add, Store.set_same, hurl]

/-- When every node rejects and the counter can reach `retryLimit + 1` without
wrapping, the loop makes the remaining attempts and the handler fails; `k` is the
number of attempts still to make when the counter is at `c`. -/
theorem attempts64_exhaust (size retryLimit : Int) (ptrs : List Nat) (st : Store)
    (w : ResponseWriter) (hall : ∀ p ∈ ptrs, ((st p).AllowRequest64 size).1 = false)
    (hR : retryLimit < MaxInt64) :
    ∀ (k : Nat) (c : Int) (fuel : Nat) (lastError : String) (tr : List Event),
      0 ≤ c → c + k = retryLimit + 1 → k + 1 ≤ fuel →
      attempts64 size retryLimit ptrs fuel c st w lastError tr =
        some { store := st
               w := httpError
                 (Fprintln w (if k = 0 then lastError else "All nodes are at capacity."))
                 (if k = 0 then lastError else "All nodes are at capacity.")
                 StatusServiceUnavailable
               trace := tr ++ failedAttempts64 size ptrs k
               directed := none } := by
  intro k
  induction k with
  | zero =>
    intro c fuel lastError tr _ hck hf
    obtain ⟨f, rfl⟩ : ∃ f, fuel = f + 1 := ⟨fuel - 1, by omega⟩
    have hgt : ¬ c ≤ retryLimit := by push_cast at hck; omega
    simp [attempts64, hgt, failedAttempts64]
  | succ k ih =>
    intro c fuel lastError tr h0 hck hf
    obtain ⟨f, rfl⟩ : ∃ f, fuel = f + 1 := ⟨fuel - 1, by omega⟩
    push_cast at hck
    have hle : c ≤ retryLimit := by omega
    have hw : wrap64 (c + 1) = c + 1 :=
      wrap64_eq _ ⟨by unfold MinInt64; omega, by omega⟩
    have hrec := ih (c + 1) f "All nodes are at capacity."
      (tr ++ ptrs.map (fun p => Event.allowRequest p size false) ++ [Event.sleep 1])
      (by omega) (by omega) (by omega)
    simp only [attempts64, hle, if_true, scan64_all_reject size st ptrs 0 hall, hw, hrec,
      failedAttempts64]
    simp

/-- When every node rejects and `retryLimit` is `MaxInt64` (or more), the condition
of the loop holds for every value of the counter: the loop never ends. -/
theorem attempts64_diverge (size retryLimit : Int) (ptrs : List Nat) (st : Store)
    (hall : ∀ p ∈ ptrs, ((st p).AllowRequest64 size).1 = false)
    (hR : MaxInt64 ≤ retryLimit) :
    ∀ (fuel : Nat) (c : Int) (w : ResponseWriter) (lastError : String) (tr : List Event),
      c ≤ MaxInt64 →
      attempts64 size retryLimit ptrs fuel c st w lastError tr = none := by
  intro fuel
  induction fuel with
  | zero => intro c w lastError tr _; rfl
  | succ f ih =>
    intro c w lastError tr hc
    have hle : c ≤ retryLimit := le_trans hc hR
    simp only [attempts64, hle, if_true, scan64_all_reject size st ptrs 0 hall]
    exact ih _ _ _ _ (wrap64_fits _).2

theorem allowCalls_failedAttempts64 (size : Int) (ptrs : List Nat) (k : Nat) :
    allowCalls (failedAttempts64 size ptrs k) = rejectedPasses ptrs k := by
  induction k with
  | zero => rfl
  | succ k ih =>
    simp [failedAttempts64, rejectedPasses, rejectedPass, allowCalls_append,
      allowCalls_map_allow, allowCalls, ih]

theorem sleepCount_failedAttempts64 (size : Int) (ptrs : List Nat) (k : Nat) :
    sleepCount (failedAttempts64 size ptrs k) = k := by
  induction k with
  | zero => rfl
  | succ k ih =>
    simp [failedAttempts64, sleepCount_append, sleepCount_map_allow, sleepCount, ih]

theorem count_rejectedPass (ptrs : List Nat) (p : Nat) :
    (rejectedPass ptrs).count (p, false) = ptrs.count p := by
  induction ptrs with
  | nil => rfl
  | cons a rest ih =>
    unfold rejectedPass at ih ⊢
    simp only [List.map_cons, List.count_cons, ih, beq_iff_eq, Prod.mk.injEq, and_true]

theorem count_rejectedPasses (ptrs : List Nat) (k p : Nat) :
    (rejectedPasses ptrs k).count (p, false) = k * ptrs.count p := by
  induction k with
  | zero => simp [rejectedPasses]
  | succ k ih =>
    simp only [rejectedPasses, List.count_append, ih, count_rejectedPass]
    ring

theorem length_rejectedPasses (ptrs : List Nat) (k : Nat) :
    (rejectedPasses ptrs k).length = k * ptrs.length := by
  induction k with
  | zero => simp [rejectedPasses]
  | succ k ih =>
    simp only [rejectedPasses, List.length_append, ih, rejectedPass, List.length_map]
    ring

theorem rejectedPasses_snd (ptrs : List Nat) (k : Nat) :
    ∀ e ∈ rejectedPasses ptrs k, e.2 = false := by
  induction k with
  | zero => intro e he; simp [rejectedPasses] at he
  | succ k ih =>
    intro e he
    simp only [rejectedPasses, List.mem_append] at he
    rcases he with h | h
    · simp only [rejectedPass, List.mem_map] at h
      obtain ⟨i, _, rfl⟩ := h
      rfl
    · exact ih e h

/-- C5, as the claim states it, fails: with `RetryLimit = -1` and the pool `[0]` over
the store that holds `smallNode` at address 0, a 1-byte request would be admitted by
the node, yet the condition `0 <= -1` of the loop fails at once: `HandleRequest`
makes no scan, leaves the node as it was and answers with the failure lines. -/
theorem negative_retry_counterexample :
    (((storeOf [smallNode]) 0).AllowRequest64 1).1 = true ∧
    (LoadBalancer64.HandleRequest { Nodes := [0], RetryLimit := -1 }
        (storeOf [smallNode]) ResponseWriter.fresh 1 1).map
      (fun o => (o.directed, o.trace, o.store 0))
      = some (none, [], smallNode) ∧
    (LoadBalancer64.HandleRequest { Nodes := [0], RetryLimit := -1 }
        (storeOf [smallNode]) ResponseWriter.fresh 1 5).map
      (fun o => (o.directed, o.trace, o.store 0))
      = some (none, [], smallNode) := by
  decide

/-- C5, amended: for every pool, cost and `RetryLimit ≥ 0`, when some node of the pool
would admit the cost, `HandleRequest` succeeds on its first attempt (it returns as
soon as the loop condition has been tested once): it takes the pool entry of least
list index `i` among those whose node admits, writes the line
"Request directed to <URL>" with that node's URL, asks the entries before `i` once
each (they reject), asks entry `i` once (it admits) and no entry after it, never
sleeps, applies that one admission to the node of entry `i` and leaves every other
node in memory as it was. -/
theorem handler_first_fit64 (lb : LoadBalancer64) (st : Store) (w : ResponseWriter) (cost : Int)
    (hR : 0 ≤ lb.RetryLimit)
    (h : ∃ p ∈ lb.Nodes, ((st p).AllowRequest64 cost).1 = true) :
    ∃ (i p : Nat), lb.Nodes[i]? = some p ∧ ((st p).AllowRequest64 cost).1 = true ∧
      (∀ (j q : Nat), j < i → lb.Nodes[j]? = some q →
        ((st q).AllowRequest64 cost).1 = false) ∧
      ∀ fuel : Nat, 0 < fuel →
        ∃ o : Outcome64, lb.HandleRequest st w cost fuel = some o ∧
          o.directed = some (i, p) ∧
          o.w = w.Write ("Request directed to " ++ (st p).URL ++ "\n") ∧
          o.trace = (lb.Nodes.take i).map (fun q => Event.allowRequest q cost false)
            ++ [Event.allowRequest p cost true] ∧
          sleepCount o.trace = 0 ∧
          o.store p = ((st p).AllowRequest64 cost).2 ∧
          (∀ q : Nat, q ≠ p → o.store q = st q) := by
  obtain ⟨i, p, hi, hadm, hbefore⟩ := exists_first_admit64 cost st lb.Nodes h
  refine ⟨i, p, hi, hadm, hbefore, ?_⟩
  intro fuel hf
  obtain ⟨f, rfl⟩ : ∃ f, fuel = f + 1 := ⟨fuel - 1, by omega⟩
  have hrun := attempts64_accept cost lb.RetryLimit lb.Nodes f 0 st w "" [] hR i p hi hadm
    hbefore
  refine ⟨_, hrun, rfl, rfl, by simp, ?_, Store.set_same _ _ _, ?_⟩
  · show sleepCount ([] ++ ((lb.Nodes.take i).map (fun q => Event.allowRequest q cost false)
        ++ [Event.allowRequest p cost true])) = 0
    rw [List.nil_append, sleepCount_append, sleepCount_map_allow]
    rfl
  · intro q hq
    exact Store.set_other _ _ _ _ hq

/-- An instance of the amended C5: the second dispatch of Scenario C (A exhausted, B
fresh, `RetryLimit = 0`). -/
theorem handler_first_fit64_witness :
    ∃ (i p : Nat), [0, 1][i]? = some p ∧
      (((storeOf [scenarioNode "A" 1, scenarioNode "B" 0]) p).AllowRequest64 1).1 = true ∧
      (∀ (j q : Nat), j < i → [0, 1][j]? = some q →
        (((storeOf [scenarioNode "A" 1, scenarioNode "B" 0]) q).AllowRequest64 1).1
          = false) ∧
      ∀ fuel : Nat, 0 < fuel →
        ∃ o : Outcome64,
          LoadBalancer64.HandleRequest { Nodes := [0, 1], RetryLimit := 0 }
            (storeOf [scenarioNode "A" 1, scenarioNode "B" 0]) ResponseWriter.fresh 1 fuel
            = some o ∧
          o.directed = some (i, p) ∧
          o.w = ResponseWriter.fresh.Write ("Request directed to "
            ++ ((storeOf [scenarioNode "A" 1, scenarioNode "B" 0]) p).URL ++ "\n") ∧
          o.trace = ([0, 1].take i).map (fun q => Event.allowRequest q 1 false)
            ++ [Event.allowRequest p 1 true] ∧
          sleepCount o.trace = 0 ∧
          o.store p
            = (((storeOf [scenarioNode "A" 1, scenarioNode "B" 0]) p).AllowRequest64 1).2 ∧
          (∀ q : Nat, q ≠ p →
            o.store q = (storeOf [scenarioNode "A" 1, scenarioNode "B" 0]) q) :=
  handler_first_fit64 { Nodes := [0, 1], RetryLimit := 0 }
    (storeOf [scenarioNode "A" 1, scenarioNode "B" 0]) ResponseWriter.fresh 1 (by decide)
    ⟨1, List.mem_cons_of_mem _ (List.mem_cons_self _ _), by decide⟩

/-- The handler on a pool in which every node rejects, for a retry bound from 0 to
`MaxInt64 - 1` and enough fuel: it fails after `RetryLimit + 1` attempts and leaves
the store as it was. -/
theorem HandleRequest64_exhaust (lb : LoadBalancer64) (st : Store) (w : ResponseWriter)
    (cost : Int) (hR0 : 0 ≤ lb.RetryLimit) (hR1 : lb.RetryLimit < MaxInt64)
    (hall : ∀ p ∈ lb.Nodes, ((st p).AllowRequest64 cost).1 = false)
    (fuel : Nat) (hf : (lb.RetryLimit + 2).toNat ≤ fuel) :
    lb.HandleRequest st w cost fuel =
      some { store := st
             w := httpError (Fprintln w "All nodes are at capacity.")
               "All nodes are at capacity." StatusServiceUnavailable
             trace := failedAttempts64 cost lb.Nodes (lb.RetryLimit + 1).toNat
             directed := none } := by
  have h := attempts64_exhaust cost lb.RetryLimit lb.Nodes st w hall hR1
    (lb.RetryLimit + 1).toNat 0 fuel "" [] (le_refl 0) (by omega) (by omega)
  have hne : ¬ (lb.RetryLimit + 1).toNat = 0 := by omega
  simp only [hne, if_false, List.nil_append] at h
  exact h

/-- The 64-bit counterpart of `sleepCount_exhausted`: on a pool of pointers and for a
retry bound from 0 to `MaxInt64 - 1`, a dispatch in which every node rejects sleeps
`RetryLimit + 1` times before it fails, once after the last attempt too. -/
theorem sleepCount_exhausted64 (lb : LoadBalancer64) (st : Store) (w : ResponseWriter)
    (cost : Int) (hR0 : 0 ≤ lb.RetryLimit) (hR1 : lb.RetryLimit < MaxInt64)
    (hall : ∀ p ∈ lb.Nodes, ((st p).AllowRequest64 cost).1 = false)
    (fuel : Nat) (hf : (lb.RetryLimit + 2).toNat ≤ fuel) :
    (lb.HandleRequest st w cost fuel).map (fun o => sleepCount o.trace)
      = some (lb.RetryLimit + 1).toNat := by
  rw [HandleRequest64_exhaust lb st w cost hR0 hR1 hall fuel hf]
  simp [sleepCount_failedAttempts64]

/-- The 64-bit counterpart of `response_exhausted`: the response of a dispatch in
which every node rejects has status 200 and the message twice. -/
theorem response_exhausted64 (lb : LoadBalancer64) (st : Store) (cost : Int)
    (hR0 : 0 ≤ lb.RetryLimit) (hR1 : lb.RetryLimit < MaxInt64)
    (hall : ∀ p ∈ lb.Nodes, ((st p).AllowRequest64 cost).1 = false)
    (fuel : Nat) (hf : (lb.RetryLimit + 2).toNat ≤ fuel) :
    (lb.HandleRequest st ResponseWriter.fresh cost fuel).map (fun o => o.w)
      = some { wroteHeader := true, status := 200,
               body := "" ++ ("All nodes are at capacity." ++ "\n")
                 ++ ("All nodes are at capacity." ++ "\n") } := by
  rw [HandleRequest64_exhaust lb st ResponseWriter.fresh cost hR0 hR1 hall fuel hf]
  rfl

/-- Two failing dispatches on the 64-bit dispatcher: the third dispatch of Scenario C
sleeps once after its only attempt, and a 101-byte request on the pool of `main` is
answered with status 200 and the message twice. -/
theorem exhausted_dispatch64_examples :
    (LoadBalancer64.HandleRequest { Nodes := [0, 1], RetryLimit := 0 }
        (storeOf [scenarioNode "A" 1, scenarioNode "B" 1]) ResponseWriter.fresh 1 2).map
      (fun o => (o.directed, o.trace))
      = some (none, [Event.allowRequest 0 1 false, Event.allowRequest 1 1 false,
          Event.sleep 1]) ∧
    (LoadBalancer64.HandleRequest { Nodes := [0, 1], RetryLimit := 3 } (storeOf mainNodes)
        ResponseWriter.fresh 101 5).map (fun o => (o.directed, o.w.status, o.w.body))
      = some (none, 200, "All nodes are at capacity.\nAll nodes are at capacity.\n") := by
  decide

/-- C6, as the claim states it, fails on the 64-bit loop counter: with
`RetryLimit = MaxInt64` and the pool of Scenario C with both nodes exhausted, every
node rejects on every attempt, yet `i <= MaxInt64` holds for every value of `i` (the
increment wraps), so the loop never ends and `CapacityExhausted` is never signalled:
whatever the fuel, the handler has not returned. -/
theorem no_verdict_counterexample :
    0 ≤ MaxInt64 ∧
    (∀ p ∈ [0, 1],
      (((storeOf [scenarioNode "A" 1, scenarioNode "B" 1]) p).AllowRequest64 1).1 = false) ∧
    (∀ fuel : Nat,
      LoadBalancer64.HandleRequest { Nodes := [0, 1], RetryLimit := MaxInt64 }
        (storeOf [scenarioNode "A" 1, scenarioNode "B" 1]) ResponseWriter.fresh 1 fuel
        = none) := by
  refine ⟨by decide, by decide, ?_⟩
  intro fuel
  exact attempts64_diverge 1 MaxInt64 [0, 1] _ (by decide) (le_refl _) fuel 0 _ _ _
    (by decide)

/-- C6, amended: for every pool, every cost and every `RetryLimit` with
`0 ≤ RetryLimit < MaxInt64`, with nothing interleaved, `HandleRequest` returns, and it
signals `CapacityExhausted` exactly when every node of the pool rejects the cost,
which is exactly when the `AllowRequest` calls it made are `RetryLimit + 1` passes
over the whole pool in which every call returned false; and when it signals
`CapacityExhausted` every node in memory is in the state it had before the call. -/
theorem exhausted_iff64 (lb : LoadBalancer64) (st : Store) (w : ResponseWriter)
    (cost : Int) (hR0 : 0 ≤ lb.RetryLimit) (hR1 : lb.RetryLimit < MaxInt64) :
    ∀ fuel : Nat, (lb.RetryLimit + 2).toNat ≤ fuel →
      ∃ o : Outcome64, lb.HandleRequest st w cost fuel = some o ∧
        (o.capacityExhausted = true ↔
          ∀ p ∈ lb.Nodes, ((st p).AllowRequest64 cost).1 = false) ∧
        (o.capacityExhausted = true ↔
          allowCalls o.trace = rejectedPasses lb.Nodes (lb.RetryLimit + 1).toNat) ∧
        (o.capacityExhausted = true → o.store = st) := by
  intro fuel hf
  rcases all_reject_or_admit64 cost st lb.Nodes with hall | hsome
  · refine ⟨_, HandleRequest64_exhaust lb st w cost hR0 hR1 hall fuel hf, ?_, ?_, ?_⟩
    · exact ⟨fun _ => hall, fun _ => rfl⟩
    · exact ⟨fun _ => allowCalls_failedAttempts64 _ _ _, fun _ => rfl⟩
    · intro _; rfl
  · have hnall : ¬ ∀ p ∈ lb.Nodes, ((st p).AllowRequest64 cost).1 = false := by
      intro hall
      obtain ⟨p, hp, hadm⟩ := hsome
      rw [hall p hp] at hadm
      exact Bool.false_ne_true hadm
    obtain ⟨i, p, hi, hadm, hbefore⟩ := exists_first_admit64 cost st lb.Nodes hsome
    obtain ⟨f, rfl⟩ : ∃ f, fuel = f + 1 := ⟨fuel - 1, by omega⟩
    have hrun := attempts64_accept cost lb.RetryLimit lb.Nodes f 0 st w "" [] hR0 i p hi hadm
      hbefore
    refine ⟨_, hrun, ?_, ?_, ?_⟩
    · exact ⟨fun h => by simp [Outcome64.capacityExhausted] at h, fun h => absurd h hnall⟩
    · constructor
      · intro h; simp [Outcome64.capacityExhausted] at h
      · intro heq
        have hmem : (p, true) ∈ allowCalls
            ([] ++ ((lb.Nodes.take i).map (fun q => Event.allowRequest q cost false)
              ++ [Event.allowRequest p cost true])) := by
          rw [List.nil_append, allowCalls_append]
          simp [allowCalls]
        rw [heq] at hmem
        have := rejectedPasses_snd _ _ _ hmem
        simp at this
    · intro h; simp [Outcome64.capacityExhausted] at h

/-- An instance of the amended C6: a 101-byte request on the pool of `main` (limits
100 and 50 bytes, `RetryLimit = 3`) is refused by both nodes on all four attempts and
leaves both nodes as they were. -/
theorem exhausted_iff64_witness :
    ∃ o : Outcome64,
      LoadBalancer64.HandleRequest { Nodes := [0, 1], RetryLimit := 3 } (storeOf mainNodes)
        ResponseWriter.fresh 101 5 = some o ∧
      (o.capacityExhausted = true ↔
        ∀ p ∈ [0, 1], (((storeOf mainNodes) p).AllowRequest64 101).1 = false) ∧
      (o.capacityExhausted = true ↔
        allowCalls o.trace = rejectedPasses [0, 1] ((3 : Int) + 1).toNat) ∧
      (o.capacityExhausted = true → o.store = storeOf mainNodes) :=
  exhausted_iff64 { Nodes := [0, 1], RetryLimit := 3 } (storeOf mainNodes)
    ResponseWriter.fresh 101 (by decide) (by decide) 5 (by decide)

/-- C7, as the claim states it, fails. First, on the 64-bit loop counter: with
`RetryLimit = MaxInt64` and the pool of `main`, a 101-byte request is rejected by both
nodes on every attempt and the loop never ends: whatever the fuel, the handler has
not returned. Second, on a pool that lists one node twice: with `RetryLimit = 0` and
the pool `[0, 0]` over an exhausted node, the one scan asks that node twice, not
`RetryLimit + 1 = 1` times. -/
theorem endless_scans_counterexample :
    (0 ≤ MaxInt64 ∧
      (∀ p ∈ [0, 1], (((storeOf mainNodes) p).AllowRequest64 101).1 = false) ∧
      (∀ fuel : Nat,
        LoadBalancer64.HandleRequest { Nodes := [0, 1], RetryLimit := MaxInt64 }
          (storeOf mainNodes) ResponseWriter.fresh 101 fuel = none)) ∧
    ((LoadBalancer64.HandleRequest { Nodes := [0, 0], RetryLimit := 0 }
        (storeOf [scenarioNode "A" 1]) ResponseWriter.fresh 1 2).map
      (fun o => (o.directed, allowCalls o.trace))
      = some (none, [(0, false), (0, false)])) := by
  refine ⟨⟨by decide, by decide, ?_⟩, by decide⟩
  intro fuel
  exact attempts64_diverge 101 MaxInt64 [0, 1] _ (by decide) (le_refl _) fuel 0 _ _ _
    (by decide)

/-- C7, amended: for every pool and every `RetryLimit` with
`0 ≤ RetryLimit < MaxInt64`, when every node rejects the cost, `HandleRequest` makes
exactly `RetryLimit + 1` passes over the pool and then fails; each pass calls
`AllowRequest` once for every entry of the pool, in list order, so that a node is
asked exactly `RetryLimit + 1` times for each time it occurs in the pool (exactly
`RetryLimit + 1` times when the nodes of the pool are pairwise distinct); the handler
returns once the loop condition has been tested `RetryLimit + 2` times. -/
theorem exhausted_scans64 (lb : LoadBalancer64) (st : Store) (w : ResponseWriter)
    (cost : Int) (hR0 : 0 ≤ lb.RetryLimit) (hR1 : lb.RetryLimit < MaxInt64)
    (hall : ∀ p ∈ lb.Nodes, ((st p).AllowRequest64 cost).1 = false) :
    ∀ fuel : Nat, (lb.RetryLimit + 2).toNat ≤ fuel →
      ∃ o : Outcome64, lb.HandleRequest st w cost fuel = some o ∧
        allowCalls o.trace = rejectedPasses lb.Nodes (lb.RetryLimit + 1).toNat ∧
        (∀ p : Nat,
          (((allowCalls o.trace).count (p, false) : Nat) : Int)
            = (lb.RetryLimit + 1) * lb.Nodes.count p ∧
          (allowCalls o.trace).count (p, true) = 0) ∧
        (lb.Nodes.Nodup → ∀ p ∈ lb.Nodes,
          (((allowCalls o.trace).count (p, false) : Nat) : Int) = lb.RetryLimit + 1) ∧
        (((allowCalls o.trace).length : Nat) : Int)
          = (lb.RetryLimit + 1) * lb.Nodes.length ∧
        o.capacityExhausted = true := by
  intro fuel hf
  refine ⟨_, HandleRequest64_exhaust lb st w cost hR0 hR1 hall fuel hf, ?_, ?_, ?_, ?_, rfl⟩
  · exact allowCalls_failedAttempts64 _ _ _
  · intro p
    have hcast : (((lb.RetryLimit + 1).toNat : Nat) : Int) = lb.RetryLimit + 1 := by omega
    constructor
    · show (((allowCalls (failedAttempts64 cost lb.Nodes (lb.RetryLimit + 1).toNat)).count
        (p, false) : Nat) : Int) = _
      rw [allowCalls_failedAttempts64, count_rejectedPasses]
      push_cast
      rw [hcast]
    · show (allowCalls (failedAttempts64 cost lb.Nodes (lb.RetryLimit + 1).toNat)).count
        (p, true) = 0
      rw [allowCalls_failedAttempts64, List.count_eq_zero]
      intro hmem
      have := rejectedPasses_snd _ _ _ hmem
      simp at this
  · intro hnd p hp
    have hcast : (((lb.RetryLimit + 1).toNat : Nat) : Int) = lb.RetryLimit + 1 := by omega
    show (((allowCalls (failedAttempts64 cost lb.Nodes (lb.RetryLimit + 1).toNat)).count
      (p, false) : Nat) : Int) = _
    rw [allowCalls_failedAttempts64, count_rejectedPasses, List.count_eq_one_of_mem hnd hp]
    push_cast
    rw [hcast]
    ring
  · have hcast : (((lb.RetryLimit + 1).toNat : Nat) : Int) = lb.RetryLimit + 1 := by omega
    show (((allowCalls (failedAttempts64 cost lb.Nodes (lb.RetryLimit + 1).toNat)).length
      : Nat) : Int) = _
    rw [allowCalls_failedAttempts64, length_rejectedPasses]
    push_cast
    rw [hcast]

/-- An instance of the amended C7 (Scenario E): with `RetryLimit = 3` a 101-byte
request on the pool of `main` makes four passes over the two nodes. -/
theorem exhausted_scans64_witness :
    ∃ o : Outcome64,
      LoadBalancer64.HandleRequest { Nodes := [0, 1], RetryLimit := 3 } (storeOf mainNodes)
        ResponseWriter.fresh 101 5 = some o ∧
      allowCalls o.trace
        = [(0, false), (1, false), (0, false), (1, false),
           (0, false), (1, false), (0, false), (1, false)] ∧
      o.capacityExhausted = true := by
  obtain ⟨o, h1, h2, _, _, _, h6⟩ :=
    exhausted_scans64 { Nodes := [0, 1], RetryLimit := 3 } (storeOf mainNodes)
      ResponseWriter.fresh 101 (by decide) (by decide) (by decide) 5 (by decide)
  refine ⟨o, h1, ?_, h6⟩
  rw [h2]
  decide

/-- C20, as the claim states it, fails on the 64-bit loop counter: on the pool `[0]`
over `smallNode` (100 bytes per window) a 101-byte request is rejected; with
`RetryLimit = 0` the handler fails after one attempt, but with `RetryLimit = MaxInt64`
the loop never ends, so there is no outcome to compare: whatever the fuel, the
handler has not returned. -/
theorem same_decision_counterexample :
    0 ≤ MaxInt64 ∧
    (LoadBalancer64.HandleRequest { Nodes := [0], RetryLimit := 0 } (storeOf [smallNode])
        ResponseWriter.fresh 101 2).map (fun o => (o.directed, o.store 0))
      = some (none, smallNode) ∧
    (∀ fuel : Nat,
      LoadBalancer64.HandleRequest { Nodes := [0], RetryLimit := MaxInt64 }
        (storeOf [smallNode]) ResponseWriter.fresh 101 fuel = none) := by
  refine ⟨by decide, by decide, ?_⟩
  intro fuel
  exact attempts64_diverge 101 MaxInt64 [0] _ (by decide) (le_refl _) fuel 0 _ _ _
    (by decide)

/-- C20, amended: with nothing interleaved, retrying never changes the decision: for
every pool, cost and `RetryLimit = r` with `0 ≤ r < MaxInt64`, `HandleRequest` returns
and chooses the same pool entry (or signals `CapacityExhausted`), leaves the same node
states and writes the same response as with `RetryLimit = 0`; the reason is that a
pass in which every node rejects leaves the store as it was and chooses no entry, so
the next pass rejects again. -/
theorem retry_same_decision64 (ptrs : List Nat) (st : Store) (w : ResponseWriter)
    (cost : Int) (r : Int) (hr0 : 0 ≤ r) (hr1 : r < MaxInt64) :
    (∀ fuel : Nat, (r + 2).toNat ≤ fuel →
      ∃ o o0 : Outcome64,
        LoadBalancer64.HandleRequest { Nodes := ptrs, RetryLimit := r } st w cost fuel
          = some o ∧
        LoadBalancer64.HandleRequest { Nodes := ptrs, RetryLimit := 0 } st w cost fuel
          = some o0 ∧
        o.directed = o0.directed ∧ o.store = o0.store ∧ o.w = o0.w) ∧
    ((∀ p ∈ ptrs, ((st p).AllowRequest64 cost).1 = false) →
      (scan64 cost 0 ptrs st).store = st ∧ (scan64 cost 0 ptrs st).chosen = none) := by
  constructor
  · intro fuel hf
    rcases all_reject_or_admit64 cost st ptrs with hall | hsome
    · have h1 := HandleRequest64_exhaust { Nodes := ptrs, RetryLimit := r } st w cost hr0 hr1
        hall fuel hf
      have h2 := HandleRequest64_exhaust { Nodes := ptrs, RetryLimit := 0 } st w cost
        (le_refl 0) (by show (0 : Int) < MaxInt64; decide) hall fuel
        (by show ((0 : Int) + 2).toNat ≤ fuel; omega)
      exact ⟨_, _, h1, h2, rfl, rfl, rfl⟩
    · obtain ⟨i, p, hi, hadm, hbefore⟩ := exists_first_admit64 cost st ptrs hsome
      obtain ⟨f, rfl⟩ : ∃ f, fuel = f + 1 := ⟨fuel - 1, by omega⟩
      have h1 := attempts64_accept cost r ptrs f 0 st w "" [] hr0 i p hi hadm hbefore
      have h2 := attempts64_accept cost 0 ptrs f 0 st w "" [] (le_refl 0) i p hi hadm hbefore
      exact ⟨_, _, h1, h2, rfl, rfl, rfl⟩
  · intro hall
    rw [scan64_all_reject cost st ptrs 0 hall]
    exact ⟨rfl, rfl⟩

/-- An instance of the amended C20 on the pool of `main`: a 101-byte request fails
with `RetryLimit = 3` as it does with `RetryLimit = 0`. -/
theorem retry_same_decision64_witness :
    ∃ o o0 : Outcome64,
      LoadBalancer64.HandleRequest { Nodes := [0, 1], RetryLimit := 3 } (storeOf mainNodes)
        ResponseWriter.fresh 101 5 = some o ∧
      LoadBalancer64.HandleRequest { Nodes := [0, 1], RetryLimit := 0 } (storeOf mainNodes)
        ResponseWriter.fresh 101 5 = some o0 ∧
      o.directed = o0.directed ∧ o.store = o0.store ∧ o.w = o0.w :=
  (retry_same_decision64 [0, 1] (storeOf mainNodes) ResponseWriter.fresh 101 3 (by decide)
    (by decide)).1 5 (by decide)

/-! ### Filling a pool of pointers -/

theorem fillFrom64_isSome (c : Int) (st : Store) (ptrs : List Nat) :
    ∀ (k : Nat), ∀ x ∈ fillFrom64 c st k ptrs, x.isSome = true := by
  induction ptrs with
  | nil => intro k x hx; simp [fillFrom64] at hx
  | cons a rest ih =>
    intro k x hx
    simp only [fillFrom64, List.mem_append, List.mem_replicate] at hx
    rcases hx with ⟨_, rfl⟩ | h
    · rfl
    · exact ih (k + 1) x h

end APIProxy
